import Mathlib

/-!
Verification development for the core of an authoritative DNS library:
the zone store (reverse-label radix keyed by a canonical-name transform),
the DNSSEC signer, and the EDNS0/OPT option codecs.

Conventions of the embedding:
* Go strings are modeled as `String` / `List Char` (all inputs of interest are ASCII,
  and Go indexes bytes; for ASCII the two views coincide).
* Go machine integers (`uint8/uint16/uint32/uint64`) are modeled as `Nat`; wherever Go
  truncates, an explicit `% 2 ^ w` appears.  `time.Time` and `time.Duration` are modeled
  as `Int` nanoseconds (Go durations are `int64` nanosecond counts).
* Go maps `map[uint16][]T` are modeled as association lists `List (Nat × List T)` with
  unique keys; iteration order of a Go map is unspecified, the list order is the
  determinization used here.  A read of a missing key yields the zero value `[]`.
* Fallible Go code returns `GoVal`: `.panic` for a runtime panic (out-of-range index or
  slice, failed type assertion), `.err` for a returned error, `.ok` for normal return.
-/

namespace Dns

/-- Result of running a piece of Go code: runtime panic, returned error, or value. -/
inductive GoVal (ε : Type) (α : Type) where
  | panicked : GoVal ε α
  | err : ε → GoVal ε α
  | ok : α → GoVal ε α
deriving Repr, DecidableEq

/-- The error values surfaced by the zone core (the Go side uses `*dns.Error` values;
only their identity matters here). -/
inductive DnsErr where
  | outOfZone
  | missingSoa
  | signatureError
  | badNetmask
  | badFamily
  | badHex
deriving Repr, DecidableEq

/-! ### DNS type codes (protocol constants; RFC-assigned, referenced by the source) -/

def TypeA : Nat := 1
def TypeNS : Nat := 2
def TypeSOA : Nat := 6
def TypeTXT : Nat := 16
def TypeAAAA : Nat := 28
def TypeDS : Nat := 43
def TypeRRSIG : Nat := 46
def TypeNSEC : Nat := 47
def TypeDNSKEY : Nat := 48
def ClassINET : Nat := 1

/-- The DNSKEY SEP flag bit (protocol constant `SEP = 1`). -/
def SEP : Nat := 1

/-! ### The canonical-name transform `toRadixName` -/

/-- ASCII lowercasing of one character, as `strings.ToLower` acts on ASCII input
(bytes ≥ 0x80 are untouched by the names considered here). -/
def asciiLower (c : Char) : Char :=
  if 'A' ≤ c ∧ c ≤ 'Z' then Char.ofNat (c.toNat + 32) else c

/-- Embeds the scan loop of `toRadixName` (zone.go).  `d` is the (dot-terminated) input;
the first list argument is `d.drop i`, consumed structurally, so `c` is `d[i]`.
`lastdot` is the index one past the previous label boundary, `lastbyte`/`lastlastbyte`
the trailing two bytes already scanned (not updated on a boundary iteration, because the
Go loop `continue`s there), and `s` the accumulator.  A dot is a boundary when the
previous byte is not a backslash, or when the two previous bytes are both backslashes
(the Go `switch` whose first case `fallthrough`s into the second). -/
def toRadixLoop (d : List Char) : List Char → Nat → Nat → Char → Char → List Char → List Char
  | [], _, _, _, _, s => s
  | c :: rest, i, lastdot, lastbyte, lastlastbyte, s =>
    if c = '.' ∧ (lastbyte ≠ '\\' ∨ lastlastbyte = '\\') then
      toRadixLoop d rest (i + 1) (i + 1) lastbyte lastlastbyte
        (((d.drop lastdot).take (i - lastdot)) ++ '.' :: s)
    else
      toRadixLoop d rest (i + 1) lastdot c lastbyte s

/-- Embeds `toRadixName` (zone.go): reverse the label order of a domain name, lowercase
it, and prepend a dot, so that radix keys compare in NSEC order.  The final Go statement
slices `s[:len(s)-1]`; when the scan never found a label boundary (e.g. the only dot of
the input is escaped) `s` is empty and that slice panics — modeled by `none`. -/
def toRadixName (dStr : String) : Option String :=
  if dStr = "" ∨ dStr = "." then some "." else
  let d0 := dStr.data
  let d := if d0.getLast? = some '.' then d0 else d0 ++ ['.']
  let s := toRadixLoop d d 0 0 (Char.ofNat 0) (Char.ofNat 0) []
  if s = [] then none
  else some (String.mk ('.' :: (s.dropLast.map asciiLower)))

/-- Bytewise lexicographic strict order on char lists: the order in which a radix tree
keyed by these strings traverses its nodes. -/
def bytesLt : List Char → List Char → Bool
  | _, [] => false
  | [], _ :: _ => true
  | a :: as, b :: bs =>
    if a.toNat < b.toNat then true
    else if b.toNat < a.toNat then false
    else bytesLt as bs

/-- Spec-side definition (from the claim's words): split an owner name into labels, where
an unescaped dot is a label boundary, an escaped dot stays inside its label, and a double
backslash is a literal backslash that does not protect the following character.
Backslashes remain part of the label text, as they do in the radix keys. -/
def specLabelsGo : List Char → Bool → List Char → List (List Char)
  | [], _, cur => if cur = [] then [] else [cur.reverse]
  | c :: rest, esc, cur =>
    if esc then specLabelsGo rest false (c :: cur)
    else if c = '\\' then specLabelsGo rest true (c :: cur)
    else if c = '.' then cur.reverse :: specLabelsGo rest false []
    else specLabelsGo rest false (c :: cur)

/-- Spec-side definition: the label list of an owner name. -/
def specLabels (d : List Char) : List (List Char) := specLabelsGo d false []

/-- Lexicographic strict order on label sequences, labels compared bytewise. -/
def labelSeqLt : List (List Char) → List (List Char) → Bool
  | _, [] => false
  | [], _ :: _ => true
  | a :: as, b :: bs =>
    if bytesLt a b then true
    else if bytesLt b a then false
    else labelSeqLt as bs

/-- Spec-side definition (from the claim's words): DNSSEC canonical strict order of two
owner names — lexicographic order of the label-reversed lowercased label sequences. -/
def specCanonicalLt (a b : String) : Bool :=
  labelSeqLt (((specLabels a.data).map (fun l => l.map asciiLower)).reverse)
    (((specLabels b.data).map (fun l => l.map asciiLower)).reverse)

/-! ### Resource records -/

/-- Embeds `RR_Header` (the fixed header every record carries). -/
structure RR_Header where
  Name : String
  Rrtype : Nat
  Class : Nat
  Ttl : Nat
  Rdlength : Nat
deriving Repr, DecidableEq

/-- Embeds the `RRSIG` record (dnssec.go of the RR module; the fields are the ones the
zone code reads and writes). -/
structure RRSIG where
  Hdr : RR_Header
  TypeCovered : Nat
  Algorithm : Nat
  Labels : Nat
  OrigTtl : Nat
  Expiration : Nat
  Inception : Nat
  KeyTag : Nat
  SignerName : String
  Signature : String
deriving Repr, DecidableEq

/-- Embeds the `DNSKEY` record (used both in the tree and as the public half of a
signing key). -/
structure DNSKEY where
  Hdr : RR_Header
  Flags : Nat
  Protocol : Nat
  Algorithm : Nat
  PublicKey : String
deriving Repr, DecidableEq

/-- Embeds the dynamic type of a Go `RR` interface value: the concrete record structs the
zone code type-asserts against (`*RRSIG`, `*NSEC`, `*SOA`, `*DS`, `*DNSKEY`), plus a
generic arm for every other concrete type (whose rdata the zone code never inspects). -/
inductive RR where
  | soa (hdr : RR_Header) (minttl : Nat)
  | ns (hdr : RR_Header) (nsName : String)
  | nsec (hdr : RR_Header) (nextDomain : String) (typeBitMap : List Nat)
  | rrsig (sig : RRSIG)
  | dnskey (k : DNSKEY)
  | ds (hdr : RR_Header) (keyTag alg digestType : Nat) (digest : String)
  | generic (hdr : RR_Header) (rdata : List Nat)
deriving Repr, DecidableEq

/-- Embeds `r.Header()`. -/
def RR.Header : RR → RR_Header
  | .soa h _ => h
  | .ns h _ => h
  | .nsec h _ _ => h
  | .rrsig s => s.Hdr
  | .dnskey k => k.Hdr
  | .ds h _ _ _ _ => h
  | .generic h _ => h

/-! ### Go map and slice helpers -/

/-- Association-list read of a Go map (`m[k]` with comma-ok). -/
def mapGet {α : Type} : List (Nat × α) → Nat → Option α
  | [], _ => none
  | (k1, v) :: rest, k => if k1 = k then some v else mapGet rest k

/-- Go map read without comma-ok: a missing key yields the zero value (a nil slice). -/
def mapGetD {α : Type} (m : List (Nat × List α)) (k : Nat) : List α :=
  (mapGet m k).getD []

/-- Association-list write of a Go map (`m[k] = v`); a new key goes to the end (the
determinization of Go's unordered maps used throughout). -/
def mapSet {α : Type} : List (Nat × α) → Nat → α → List (Nat × α)
  | [], k, v => [(k, v)]
  | (k1, v1) :: rest, k, v =>
    if k1 = k then (k, v) :: rest else (k1, v1) :: mapSet rest k v

/-- Association-list delete of a Go map key (`delete(m, k)`). -/
def mapDel {α : Type} : List (Nat × α) → Nat → List (Nat × α)
  | [], _ => []
  | (k1, v1) :: rest, k => if k1 = k then rest else (k1, v1) :: mapDel rest k

/-- In-place left shift of a slice backing array, as `append(a[:i1], a[i1+1:]...)`
performs it: positions `i1 ≤ j` with `j+1 < curLen` take the next element, every other
position (including the junk beyond the new length) keeps its value.  The backing array
length never changes. -/
def shiftDel {α : Type} (backing : List α) (i1 curLen : Nat) : List α :=
  backing.enum.map (fun p =>
    if i1 ≤ p.1 ∧ p.1 + 1 < curLen then (backing.get? (p.1 + 1)).getD p.2 else p.2)

/-- Embeds the Go pattern
`for i1, s1 := range s { if cond(s1) { s = append(s[:i1], s[i1+1:]...) } }`
(used by `Zone.Remove` and by the expiration sweep of `ZoneData.Sign`): the range reads
through the slice header captured at entry (its length `L0` is the fuel), while removals
shift the shared backing array left in place and shorten the live slice.  Returns the
backing array, the live length and whether anything was removed; `none` models the panic
of the slice expression `s[i1+1:]` when `i1` is at or past the live length. -/
def goRemoveLoop {α : Type} (cond : α → Bool) :
    Nat → Nat → List α → Nat → Bool → Option (List α × Nat × Bool)
  | 0, _, backing, curLen, removed => some (backing, curLen, removed)
  | fuel + 1, i1, backing, curLen, removed =>
    match backing.get? i1 with
    | none => some (backing, curLen, removed)
    | some s1 =>
      if cond s1 then
        if i1 < curLen then
          goRemoveLoop cond fuel (i1 + 1) (shiftDel backing i1 curLen) (curLen - 1) true
        else none
      else goRemoveLoop cond fuel (i1 + 1) backing curLen removed

/-! ### Zone containers -/

/-- Embeds `ZoneData` (zone.go): the RRs and RRSIGs of one owner name.  `RR` maps an RR
type code to its RRset, `Signatures` maps a type-covered code to the RRSIGs covering that
RRset. -/
structure ZoneData where
  Name : String
  RR : List (Nat × List Dns.RR)
  Signatures : List (Nat × List RRSIG)
  NonAuth : Bool
deriving Repr, DecidableEq

/-- Embeds `NewZoneData`. -/
def NewZoneData (s : String) : ZoneData :=
  { Name := s, RR := [], Signatures := [], NonAuth := false }

/-- Embeds `Zone` (zone.go).  The radix tree is modeled as an association list of
(radix key, node) pairs kept in bytewise key order — the order in which the radix tree
enumerates its nodes.  `ModTime` is an abstract clock reading supplied by the caller of
each mutator. -/
structure Zone where
  Origin : String
  olabels : List String
  Wildcard : Int
  expired : Bool
  ModTime : Nat
  tree : List (String × ZoneData)
deriving Repr, DecidableEq

/-- Exact lookup in the radix tree. -/
def treeFindExact : List (String × ZoneData) → String → Option ZoneData
  | [], _ => none
  | (k1, zd) :: rest, k => if k1 = k then some zd else treeFindExact rest k

/-- Replaces the node stored under an existing key. -/
def treeSetExact : List (String × ZoneData) → String → ZoneData → List (String × ZoneData)
  | [], _, _ => []
  | (k1, z1) :: rest, k, zd =>
    if k1 = k then (k, zd) :: rest else (k1, z1) :: treeSetExact rest k zd

/-- Inserts a node at its key's position in bytewise key order (`radix.Insert`). -/
def treeInsert : List (String × ZoneData) → String → ZoneData → List (String × ZoneData)
  | [], k, zd => [(k, zd)]
  | (k1, z1) :: rest, k, zd =>
    if k1 = k then (k, zd) :: rest
    else if bytesLt k.data k1.data then (k, zd) :: (k1, z1) :: rest
    else (k1, z1) :: treeInsert rest k zd

/-- Removes the exact-match node, a no-op when absent (`radix.Remove`). -/
def treeDel : List (String × ZoneData) → String → List (String × ZoneData)
  | [], _ => []
  | (k1, z1) :: rest, k => if k1 = k then rest else (k1, z1) :: treeDel rest k

/-- Whether `p` is a strict prefix of `s` (bytewise). -/
def strictPfx (p s : List Char) : Bool :=
  decide (p.length < s.length) && (s.take p.length == p)

/-- Nearest-ancestor lookup backing `radix.Find`: when no exact match exists the node
with the longest key that is a strict prefix of the query is returned (`exact = false`),
or `none` when there is no such node. -/
def treeAncestor : List (String × ZoneData) → String → Option (String × ZoneData)
  | [], _ => none
  | (k1, z1) :: rest, k =>
    match treeAncestor rest k with
    | none => if strictPfx k1.data k.data then some (k1, z1) else none
    | some (k2, z2) =>
      if strictPfx k1.data k.data ∧ decide (k2.length < k1.length) then some (k1, z1)
      else some (k2, z2)

/-- Embeds `radix.Find`: exact match, or the nearest ancestor with `exact = false`. -/
def radixFind (t : List (String × ZoneData)) (k : String) : Option ZoneData × Bool :=
  match treeFindExact t k with
  | some zd => (some zd, true)
  | none =>
    match treeAncestor t k with
    | some (_, zd) => (some zd, false)
    | none => (none, false)

/-! ### In-zone test -/

/-- Modelled from the spec: `SplitLabels` (outside src/) splits a name into its label
vector (§3 `origin_labels`), with the boundary rules of §4.1; the root name has no
labels. -/
def SplitLabels (s : String) : List String :=
  if s = "." then [] else (specLabels s.data).map String.mk

/-- ASCII `strings.ToLower` on a whole string. -/
def goToLower (s : String) : String := String.mk (s.data.map asciiLower)

/-- Embeds the suffix-matching loop of `compareLabelsSlice` on the reversed label lists. -/
def compareLabelsLoop : List String → List String → Nat
  | a :: as, b :: bs => if a = b then compareLabelsLoop as bs + 1 else 0
  | _, _ => 0

/-- Embeds `compareLabelsSlice` (zone.go): the number of labels the two names share,
counted from their ends. -/
def compareLabelsSlice (l1 : List String) (s2 : String) : Nat :=
  compareLabelsLoop l1.reverse (SplitLabels s2).reverse

/-- Embeds `z.isSubDomain` (zone.go). -/
def Zone.isSubDomain (z : Zone) (child : String) : Bool :=
  compareLabelsSlice z.olabels (goToLower child) == z.olabels.length

/-- The wildcard-name test the zone mutators perform:
`len(name) > 1 && name[0] == '*' && name[1] == '.'`. -/
def isWildcardName (s : String) : Bool :=
  match s.data with
  | c0 :: c1 :: _ => c0 == '*' && c1 == '.'
  | _ => false

/-! ### Zone mutators -/

/-- Embeds the per-node part of `Zone.Insert`: the `switch` on the record's type.
An RRSIG goes to `Signatures[TypeCovered]`; an NS whose owner differs from the origin
marks the node non-authoritative and still lands in `RR[NS]`; everything else is appended
to `RR[rrtype]`.  `none` models the panic of the `r.(*RRSIG)` type assertion when a
record announces `Rrtype = RRSIG` but is not an RRSIG. -/
def insertIntoNode (zd : ZoneData) (r : RR) (origin : String) : Option ZoneData :=
  if r.Header.Rrtype = TypeRRSIG then
    match r with
    | .rrsig s =>
      let sigs := mapSet zd.Signatures s.TypeCovered (mapGetD zd.Signatures s.TypeCovered ++ [s])
      some { zd with Signatures := sigs }
    | _ => none
  else
    let zd :=
      if r.Header.Rrtype = TypeNS ∧ r.Header.Name ≠ origin then { zd with NonAuth := true }
      else zd
    some { zd with RR := mapSet zd.RR r.Header.Rrtype (mapGetD zd.RR r.Header.Rrtype ++ [r]) }

/-- Embeds `Zone.Insert` (zone.go): reject out-of-zone owners, then either create a new
node (bumping `Wildcard` for a `*.`-prefixed owner) or extend the existing node. -/
def Zone.Insert (z : Zone) (r : RR) (now : Nat) : GoVal DnsErr Zone :=
  if ¬ z.isSubDomain r.Header.Name then .err .outOfZone
  else
    match toRadixName r.Header.Name with
    | none => .panicked
    | some key =>
      let z := { z with ModTime := now }
      match treeFindExact z.tree key with
      | none =>
        let z :=
          if isWildcardName r.Header.Name then { z with Wildcard := z.Wildcard + 1 } else z
        match insertIntoNode (NewZoneData r.Header.Name) r z.Origin with
        | none => .panicked
        | some zd => .ok { z with tree := treeInsert z.tree key zd }
      | some zd =>
        match insertIntoNode zd r z.Origin with
        | none => .panicked
        | some zd2 => .ok { z with tree := treeSetExact z.tree key zd2 }

/-- Embeds the `switch` of `Zone.Remove`: the removal loop over the matching bucket,
with the Go slice-aliasing semantics of `goRemoveLoop`.  Pointer equality of records is
modeled as structural equality (structurally distinct records are certainly distinct
allocations).  Returns the updated node and whether a record was removed; `none` is a
panic. -/
def removeFromNode (zd : ZoneData) (r : RR) : Option (ZoneData × Bool) :=
  if r.Header.Rrtype = TypeRRSIG then
    match r with
    | .rrsig s =>
      let cur := mapGetD zd.Signatures s.TypeCovered
      match goRemoveLoop (fun zr => zr == s) cur.length 0 cur cur.length false with
      | none => none
      | some (backing, len2, removed) =>
        let newList := backing.take len2
        let sigs :=
          if removed then
            if newList = [] then mapDel zd.Signatures s.TypeCovered
            else mapSet zd.Signatures s.TypeCovered newList
          else zd.Signatures
        some ({ zd with Signatures := sigs }, removed)
    | _ => none
  else
    let t := r.Header.Rrtype
    let cur := mapGetD zd.RR t
    match goRemoveLoop (fun zr => zr == r) cur.length 0 cur cur.length false with
    | none => none
    | some (backing, len2, removed) =>
      let newList := backing.take len2
      let rrs :=
        if removed then
          if newList = [] then mapDel zd.RR t else mapSet zd.RR t newList
        else zd.RR
      some ({ zd with RR := rrs }, removed)

/-- Embeds `Zone.Remove` (zone.go): remove a matching record; on success decrement the
wildcard counter (clamped at zero) for `*.`-prefixed owners and drop the node when it
became entirely empty. -/
def Zone.Remove (z : Zone) (r : RR) (now : Nat) : GoVal DnsErr Zone :=
  match toRadixName r.Header.Name with
  | none => .panicked
  | some key =>
    let z := { z with ModTime := now }
    match treeFindExact z.tree key with
    | none => .ok z
    | some zd =>
      match removeFromNode zd r with
      | none => .panicked
      | some (zd2, removed) =>
        if ¬ removed then .ok { z with tree := treeSetExact z.tree key zd2 }
        else
          let z :=
            if isWildcardName r.Header.Name then
              let w := z.Wildcard - 1
              { z with Wildcard := if w < 0 then 0 else w }
            else z
          if zd2.RR = [] ∧ zd2.Signatures = [] then .ok { z with tree := treeDel z.tree key }
          else .ok { z with tree := treeSetExact z.tree key zd2 }

/-- Embeds `Zone.RemoveName` (zone.go): drop the exact node if present, and decrement the
wildcard counter (clamped at zero) whenever the *argument* is `*.`-prefixed, whether or
not a node existed. -/
def Zone.RemoveName (z : Zone) (s : String) (now : Nat) : GoVal DnsErr Zone :=
  match toRadixName s with
  | none => .panicked
  | some key =>
    let z := { z with ModTime := now, tree := treeDel z.tree key }
    if isWildcardName s then
      let w := z.Wildcard - 1
      .ok { z with Wildcard := if w < 0 then 0 else w }
    else .ok z

/-- Embeds `Zone.RemoveRRset` (zone.go).  The `TypeRRSIG` arm ranges over every
type-covered key of `Signatures` and deletes them all.  The default arm ranges over
`zd.RR` with a loop variable that shadows the parameter `t` — `for t := range zd.RR
{ delete(zd.RR, t) }` — so it deletes every RR type at the node, not just the requested
one.  The node itself is never removed. -/
def Zone.RemoveRRset (z : Zone) (s : String) (t : Nat) (now : Nat) : GoVal DnsErr Zone :=
  match toRadixName s with
  | none => .panicked
  | some key =>
    let z := { z with ModTime := now }
    match treeFindExact z.tree key with
    | none => .ok z
    | some zd =>
      let zd2 :=
        if t = TypeRRSIG then { zd with Signatures := [] }
        else { zd with RR := [] }
      .ok { z with tree := treeSetExact z.tree key zd2 }

/-- Embeds `Zone.Find` (zone.go): exact node, or the nearest ancestor with
`exact = false`; the outer value is `.panicked` when `toRadixName` panics on the
argument. -/
def Zone.Find (z : Zone) (s : String) : GoVal DnsErr (Option (ZoneData × Bool)) :=
  match toRadixName s with
  | none => .panicked
  | some key =>
    match radixFind z.tree key with
    | (none, _) => .ok none
    | (some zd, e) => .ok (some (zd, e))

/-! ### Sequences of mutations -/

/-- One public mutation of a zone, with the clock reading it runs at. -/
inductive ZoneOp where
  | ins (r : RR) (now : Nat)
  | rem (r : RR) (now : Nat)
  | remName (s : String) (now : Nat)
  | remRRset (s : String) (t : Nat) (now : Nat)
deriving Repr, DecidableEq

/-- Runs one mutation.  A returned error (only `Insert` produces one) leaves the zone
unchanged and the caller continues with it; a panic aborts the run (`none`). -/
def applyOp (z : Zone) (op : ZoneOp) : Option Zone :=
  let r : GoVal DnsErr Zone :=
    match op with
    | .ins r now => Zone.Insert z r now
    | .rem r now => Zone.Remove z r now
    | .remName s now => Zone.RemoveName z s now
    | .remRRset s t now => Zone.RemoveRRset z s t now
  match r with
  | .panicked => none
  | .err _ => some z
  | .ok z2 => some z2

/-- Runs a sequence of mutations. -/
def applyOps : Zone → List ZoneOp → Option Zone
  | z, [] => some z
  | z, op :: rest =>
    match applyOp z op with
    | none => none
    | some z2 => applyOps z2 rest

/-- Claim-side: whether the leftmost label of an owner name is the wildcard label. -/
def leftmostLabelStar (s : String) : Bool :=
  match specLabels s.data with
  | l :: _ => l == ['*']
  | [] => false

/-- Claim-side: the number of nodes currently in the tree whose leftmost label is `*`. -/
def countWildcardNodes (z : Zone) : Nat :=
  (z.tree.filter (fun p => leftmostLabelStar p.2.Name)).length

/-! ### Concrete inputs used by counterexamples and witnesses -/

/-- A zone with origin `x.` and an empty tree. -/
def zoneX : Zone :=
  { Origin := "x.", olabels := ["x"], Wildcard := 0, expired := false, ModTime := 0, tree := [] }

/-- An A record at the wildcard owner. -/
def rrStarA : RR :=
  .generic { Name := "*.x.", Rrtype := 1, Class := 1, Ttl := 300, Rdlength := 0 } [1, 2, 3, 4]

/-- An AAAA record at the wildcard owner. -/
def rrStarAAAA : RR :=
  .generic { Name := "*.x.", Rrtype := 28, Class := 1, Ttl := 300, Rdlength := 0 } [0, 0, 0, 1]

/-- An A record at `w.x.`. -/
def rrWA : RR :=
  .generic { Name := "w.x.", Rrtype := 1, Class := 1, Ttl := 300, Rdlength := 0 } [9, 9, 9, 9]

/-- A TXT record at `w.x.`. -/
def rrWTXT : RR :=
  .generic { Name := "w.x.", Rrtype := 16, Class := 1, Ttl := 300, Rdlength := 0 } [5]

/-- A TXT record at the escaped-dot owner used to reach the `toRadixName` panic. -/
def rrEscaped : RR :=
  .generic { Name := "a\\.", Rrtype := 16, Class := 1, Ttl := 0, Rdlength := 0 } []

/-- A zone with root origin, which accepts every owner name as in-zone. -/
def zoneRoot : Zone :=
  { Origin := ".", olabels := [], Wildcard := 0, expired := false, ModTime := 0, tree := [] }

/-- The zone `zoneX` after inserting `rrStarA` at clock 1. -/
def zoneXStarA : Zone :=
  { Origin := "x.", olabels := ["x"], Wildcard := 1, expired := false, ModTime := 1,
    tree := [(".x.*", { Name := "*.x.", RR := [(1, [rrStarA])], Signatures := [],
                        NonAuth := false })] }

/-- The node at `w.x.` holding an A RRset and a TXT RRset. -/
def zoneWnode : ZoneData :=
  { Name := "w.x.", RR := [(1, [rrWA]), (16, [rrWTXT])], Signatures := [], NonAuth := false }

/-- A zone whose tree holds only `zoneWnode`. -/
def zoneW : Zone :=
  { Origin := "x.", olabels := ["x"], Wildcard := 0, expired := false, ModTime := 2,
    tree := [(".x.w", zoneWnode)] }

/-! ### The DNSSEC signer -/

/-- Embeds `SignatureConfig` (zone.go); the four durations are nanosecond counts, as Go
`time.Duration` values are. -/
structure SignatureConfig where
  Validity : Int
  Refresh : Int
  Jitter : Int
  InceptionOffset : Int
  HonorSepFlag : Bool
  SignerRoutines : Nat
  Minttl : Nat
deriving Repr, DecidableEq

/-- Embeds `newSignatureConfig` / `DefaultSignatureConfig` (zone.go): validity 4 weeks,
refresh 3 days, jitter 12 hours, inception offset 300 s, SEP honored, `SignerRoutines`
is `runtime.NumCPU() + 1` with the CPU count supplied by the environment. -/
def newSignatureConfig (numCPU : Nat) : SignatureConfig :=
  { Validity := 4 * 7 * 24 * 3600 * 1000000000, Refresh := 3 * 24 * 3600 * 1000000000,
    Jitter := 12 * 3600 * 1000000000, InceptionOffset := 300 * 1000000000,
    HonorSepFlag := true, SignerRoutines := numCPU + 1, Minttl := 0 }

/-- The serial-arithmetic constant `year68` of the RR module (outside src/; modelled
from the spec's "epoch 68-year wraparound": 2^31 seconds). -/
def year68 : Int := 2147483648

/-- Go `t.Unix()`: nanoseconds since the epoch truncated to whole seconds. -/
def timeUnix (tns : Int) : Int := Int.tdiv tns 1000000000

/-- Embeds `timeToUint32` (zone.go): `mod := t.Unix()/year68 - 1` clamped at zero, then
`uint32(t.Unix() - mod*year68)`; the uint32 conversion truncates mod 2^32. -/
def timeToUint32 (tns : Int) : Nat :=
  let mod0 := Int.tdiv (timeUnix tns) year68 - 1
  let mod1 := if mod0 < 0 then 0 else mod0
  (Int.emod (timeUnix tns - mod1 * year68) 4294967296).toNat

/-- Embeds `uint32ToTime` (zone.go): `mod := time.Now().Unix()/year68 - 1` clamped at
zero, then `time.Unix(0, 0).Add(time.Duration((mod * year68) * int64(t)))` — the product
is used as a *nanosecond* duration added to the epoch.  `nowNs` stands for
`time.Now()`; the result is nanoseconds since the epoch. -/
def uint32ToTime (nowNs : Int) (t : Nat) : Int :=
  let mod0 := Int.tdiv (timeUnix nowNs) year68 - 1
  let mod1 := if mod0 < 0 then 0 else mod0
  (mod1 * year68) * (t : Int)

/-- Embeds `jitterDuration` (zone.go): `jitter := rand.Intn(int(d))`; since
`rand.Intn(1)` is always 0, the `+jitter` branch is dead and the result is always
`-jitter`.  `r` is the value in `[0, d)` drawn by `rand.Intn(int(d))`; the stream of
draws is part of the environment.  (`rand.Intn` panics when `int(d) ≤ 0`; the caller
checks that separately.) -/
def jitterDuration (r : Nat) : Int := -(r : Int)

/-- The ambient inputs of a signing pass: the wall clock (`time.Now()` in nanoseconds),
the RR module's `sign(private_key, rrset)` capability (modelled from the spec, outside
src/: it yields the signature bytes stored in the fresh RRSIG's `Signature` field, or
fails with a `SignatureError`), and the stream of `rand.Intn` draws for the jitter. -/
structure SignEnv where
  nowNs : Int
  sigSign : Nat → List RR → Option String
  rnd : Nat → Nat

/-- Embeds the inner scan of `ZoneData.Sign` over the stored NSEC bitmap: `true` at the
first equal entry, `false` at the first greater entry ("it is sorted, so by now we
haven't found it") or at the end. -/
def scanFound : List Nat → Nat → Bool
  | [], _ => false
  | v :: rest, t => if v = t then true else if t < v then false else scanFound rest t

/-- Insertion into a sorted list (ascending). -/
def insertSorted (x : Nat) : List Nat → List Nat
  | [] => [x]
  | y :: rest => if x ≤ y then x :: y :: rest else y :: insertSorted x rest

/-- Embeds `sort.Sort(uint16Slice(bitmap))`: the bitmap in ascending order. -/
def sortNats (l : List Nat) : List Nat := l.foldr insertSorted []

/-- Embeds the bitmap-building loop of `ZoneData.Sign` over the keys of `node.RR`:
threads the pre-sort bitmap (seeded with `[NSEC, RRSIG]`) and the `bitmapEqual` flag.
`stored` is the stored NSEC bitmap when an NSEC exists; note the flag only ever checks
that each *present* type occurs in the stored bitmap, never the converse. -/
def bitmapLoop (stored : Option (List Nat)) : List Nat → List Nat → Bool → List Nat × Bool
  | [], bitmap, bitmapEqual => (bitmap, bitmapEqual)
  | t :: rest, bitmap, bitmapEqual =>
    let bitmapEqual :=
      match stored with
      | some bm => if ¬ scanFound bm t then false else bitmapEqual
      | none => bitmapEqual
    if t = TypeNSEC ∨ t = TypeRRSIG then bitmapLoop stored rest bitmap bitmapEqual
    else bitmapLoop stored rest (bitmap ++ [t]) bitmapEqual

/-- Embeds the NSEC-maintenance half of `ZoneData.Sign` (lines before the key walk):
compute the canonical type bitmap, then update the existing NSEC (dropping all NSEC
signatures) if its next pointer or the `bitmapEqual` check demands it, or create a fresh
NSEC.  `none` models the panic of `n[0]` on an empty stored NSEC set and of the
`n[0].(*NSEC)` type assertion. -/
def ZoneData.signNsecPhase (node : ZoneData) (next : String) (config : SignatureConfig) :
    Option ZoneData :=
  match mapGet node.RR TypeNSEC with
  | some n =>
    match n with
    | RR.nsec hdr nextDomain typeBitMap :: restn =>
      let pair := bitmapLoop (some typeBitMap) (node.RR.map (fun p => p.1))
        [TypeNSEC, TypeRRSIG] true
      let bitmap := sortNats pair.1
      if nextDomain ≠ next ∨ pair.2 = false then
        let rrs := mapSet node.RR TypeNSEC (RR.nsec hdr next bitmap :: restn)
        let sigs := mapSet node.Signatures TypeNSEC []
        some { node with RR := rrs, Signatures := sigs }
      else some node
    | _ => none
  | none =>
    let pair := bitmapLoop none (node.RR.map (fun p => p.1)) [TypeNSEC, TypeRRSIG] true
    let bitmap := sortNats pair.1
    let hdr : RR_Header :=
      { Name := node.Name, Rrtype := TypeNSEC, Class := ClassINET, Ttl := config.Minttl,
        Rdlength := 0 }
    let rrs := mapSet node.RR TypeNSEC [RR.nsec hdr next bitmap]
    let sigs := mapSet node.Signatures TypeNSEC []
    some { node with RR := rrs, Signatures := sigs }

/-- Embeds `signatures` (zone.go): the index and value of the first RRSIG in the bucket
carrying this key tag, `(0, none)` when there is none. -/
def signaturesFind : List RRSIG → Nat → Nat → Nat × Option RRSIG
  | [], _, _ => (0, none)
  | s :: rest, keytag, i =>
    if s.KeyTag = keytag then (i, some s) else signaturesFind rest keytag (i + 1)

/-- Embeds the refresh decision
`q == nil || now.Sub(uint32ToTime(q.Expiration)) < config.Refresh`. -/
def needsResign (env : SignEnv) (config : SignatureConfig) (q : Option RRSIG) : Bool :=
  match q with
  | none => true
  | some s => decide (env.nowNs - uint32ToTime env.nowNs s.Expiration < config.Refresh)

/-- Embeds one iteration of the signing double loop of `ZoneData.Sign` for a fixed
(key, RRset) pair: the SEP skip (`rrset[0].(*DNSKEY)` comma-ok test, applied whenever
the key carries the SEP flag — `config.HonorSepFlag` is never consulted), the non-auth
skip (`rrset[0].(*DS)` / `rrset[0].(*NSEC)` comma-ok tests), then the refresh decision
and fresh-RRSIG construction.  A fresh RRSIG starts from `new(RRSIG)` (zero values) and
the code sets signer name, ttl, class, algorithm, key tag, inception and expiration; the
RR module's `Sign` then fills `Signature` (or errors).  The pair `(sigs, rc)` threads
the signature map and the jitter-draw counter; the error arm carries the map as already
mutated. -/
def signOnePair (env : SignEnv) (config : SignatureConfig) (nonAuth : Bool) (k : DNSKEY)
    (p : Nat) (keytag : Nat) (t : Nat) (rrset : List RR)
    (sigs : List (Nat × List RRSIG)) (rc : Nat) :
    GoVal (DnsErr × List (Nat × List RRSIG)) (List (Nat × List RRSIG) × Nat) :=
  let sepSkip : GoVal (DnsErr × List (Nat × List RRSIG)) Bool :=
    if k.Flags &&& SEP = SEP then
      match rrset.head? with
      | none => .panicked
      | some (.dnskey _) => .ok false
      | some _ => .ok true
    else .ok false
  match sepSkip with
  | .panicked => .panicked
  | .err e => .err e
  | .ok true => .ok (sigs, rc)
  | .ok false =>
    let nonAuthSkip : GoVal (DnsErr × List (Nat × List RRSIG)) Bool :=
      if nonAuth = true then
        match rrset.head? with
        | none => .panicked
        | some (.ds _ _ _ _ _) => .ok false
        | some (.nsec _ _ _) => .ok false
        | some _ => .ok true
      else .ok false
    match nonAuthSkip with
    | .panicked => .panicked
    | .err e => .err e
    | .ok true => .ok (sigs, rc)
    | .ok false =>
      let jq := signaturesFind (mapGetD sigs t) keytag 0
      if needsResign env config jq.2 then
        if config.Jitter ≤ 0 then .panicked
        else
          let r := env.rnd rc
          let s : RRSIG :=
            { Hdr := { Name := "", Rrtype := 0, Class := ClassINET, Ttl := k.Hdr.Ttl,
                       Rdlength := 0 },
              TypeCovered := 0, Algorithm := k.Algorithm, Labels := 0, OrigTtl := 0,
              Expiration :=
                timeToUint32 (env.nowNs + jitterDuration r + config.Validity),
              Inception := timeToUint32 (env.nowNs - config.InceptionOffset),
              KeyTag := keytag, SignerName := k.Hdr.Name, Signature := "" }
          match env.sigSign p rrset with
          | none => .err (.signatureError, sigs)
          | some bytes =>
            let s2 := { s with Signature := bytes }
            match jq.2 with
            | some _ => .ok (mapSet sigs t ((mapGetD sigs t).set jq.1 s2), rc + 1)
            | none => .ok (mapSet sigs t (mapGetD sigs t ++ [s2]), rc + 1)
      else .ok (sigs, rc)

/-- The inner loop `for t, rrset := range node.RR` of `ZoneData.Sign` for one key (the
RR map is not mutated by the loop; only the signature map is threaded). -/
def signRRLoop (env : SignEnv) (config : SignatureConfig) (nonAuth : Bool) (k : DNSKEY)
    (p : Nat) (keytag : Nat) :
    List (Nat × List RR) → List (Nat × List RRSIG) → Nat →
    GoVal (DnsErr × List (Nat × List RRSIG)) (List (Nat × List RRSIG) × Nat)
  | [], sigs, rc => .ok (sigs, rc)
  | (t, rrset) :: rest, sigs, rc =>
    match signOnePair env config nonAuth k p keytag t rrset sigs rc with
    | .panicked => .panicked
    | .err e => .err e
    | .ok (sigs2, rc2) => signRRLoop env config nonAuth k p keytag rest sigs2 rc2

/-- The outer loop `for k, p := range keys` of `ZoneData.Sign` (Go map iteration
determinized by list order). -/
def signKeyLoop (env : SignEnv) (config : SignatureConfig) (nonAuth : Bool)
    (rrs : List (Nat × List RR)) (keytags : DNSKEY → Nat) :
    List (DNSKEY × Nat) → List (Nat × List RRSIG) → Nat →
    GoVal (DnsErr × List (Nat × List RRSIG)) (List (Nat × List RRSIG) × Nat)
  | [], sigs, rc => .ok (sigs, rc)
  | (k, p) :: ks, sigs, rc =>
    match signRRLoop env config nonAuth k p (keytags k) rrs sigs rc with
    | .panicked => .panicked
    | .err e => .err e
    | .ok (sigs2, rc2) => signKeyLoop env config nonAuth rrs keytags ks sigs2 rc2

/-- The condition of the final expiration sweep:
`now.Sub(uint32ToTime(s1.Expiration)) < config.Refresh`. -/
def dropCond (env : SignEnv) (config : SignatureConfig) (s1 : RRSIG) : Bool :=
  decide (env.nowNs - uint32ToTime env.nowNs s1.Expiration < config.Refresh)

/-- Embeds the final sweep of `ZoneData.Sign` over every signature bucket
(`for i, s := range node.Signatures { for i1, s1 := range s { ... } }`), with the
remove-while-ranging slice semantics of `goRemoveLoop`. -/
def dropPhase (env : SignEnv) (config : SignatureConfig) :
    List (Nat × List RRSIG) → Option (List (Nat × List RRSIG))
  | [] => some []
  | (t, s) :: rest =>
    match goRemoveLoop (dropCond env config) s.length 0 s s.length false with
    | none => none
    | some (backing, len2, _) =>
      match dropPhase env config rest with
      | none => none
      | some rest2 => some ((t, backing.take len2) :: rest2)

/-- Embeds `ZoneData.Sign` (zone.go): NSEC maintenance, the key/RRset signing walk, and
the expiration sweep.  `rc` is the index into the stream of jitter draws; the error arm
carries the node as already mutated when the RR module's `Sign` fails. -/
def ZoneData.Sign (env : SignEnv) (node : ZoneData) (next : String)
    (keys : List (DNSKEY × Nat)) (keytags : DNSKEY → Nat) (config : SignatureConfig)
    (rc : Nat) : GoVal (DnsErr × ZoneData) (ZoneData × Nat) :=
  match node.signNsecPhase next config with
  | none => .panicked
  | some node1 =>
    match signKeyLoop env config node1.NonAuth node1.RR keytags keys node1.Signatures rc with
    | .panicked => .panicked
    | .err (e, sigsErr) => .err (e, { node1 with Signatures := sigsErr })
    | .ok (sigs2, rc2) =>
      match dropPhase env config sigs2 with
      | none => .panicked
      | some sigs3 => .ok ({ node1 with Signatures := sigs3 }, rc2)

/-- The node names of the tree in radix order (the NSEC successor of the node at index
`i` is the name at index `(i+1) mod n`; names are not changed by signing). -/
def treeNames (t : List (String × ZoneData)) : List String := t.map (fun p => p.2.Name)

/-- The index of a key in the tree. -/
def treeIndexOf : List (String × ZoneData) → String → Nat
  | [], _ => 0
  | (k1, _) :: rest, k => if k1 = k then 0 else treeIndexOf rest k + 1

/-- Outcome of the producer walk of `Zone.Sign`. -/
inductive WalkRes where
  | panics
  | diverges
  | fails (e : DnsErr) (t : List (String × ZoneData))
  | ok (t : List (String × ZoneData))
deriving Repr, DecidableEq

/-- Embeds the producer loop of `Zone.Sign`, sequentialized: sign the node at index `i`
with its successor's name, stop once the successor's name equals the origin (the
wrap-around test `next.Value.(*ZoneData).Name != z.Origin`).  The Go loop never
terminates when no successor name matches the origin exactly; the fuel detects that as
`diverges` (one full cycle without a match cannot make progress, since node names never
change). -/
def signWalk (env : SignEnv) (keys : List (DNSKEY × Nat)) (keytags : DNSKEY → Nat)
    (config : SignatureConfig) (origin : String) :
    Nat → Nat → Nat → List (String × ZoneData) → WalkRes
  | 0, _, _, _ => .diverges
  | fuel + 1, i, rc, t =>
    match t.get? i with
    | none => .panics
    | some (key, node) =>
      let nextName := ((treeNames t).get? ((i + 1) % t.length)).getD ""
      match ZoneData.Sign env node nextName keys keytags config rc with
      | .panicked => .panics
      | .err (e, nodeErr) => .fails e (treeSetExact t key nodeErr)
      | .ok (node2, rc2) =>
        let t2 := treeSetExact t key node2
        if nextName = origin then .ok t2
        else signWalk env keys keytags config origin fuel ((i + 1) % t.length) rc2 t2

/-- Outcome of a full `Zone.Sign` pass.  `fails`/`ok` carry the zone (partially signed
in the error cases, as the workers mutate nodes in place). -/
inductive SignResult where
  | panics
  | diverges
  | fails (e : DnsErr) (z : Zone)
  | ok (z : Zone)
deriving Repr, DecidableEq

/-- Embeds `Zone.Sign` (zone.go), sequentialized: pre-compute the key tags (via the RR
module's `KeyTag` capability, passed in as `keytags`), look up the apex (`ErrSoa` when
absent), read `Minttl` from the apex SOA (`RR[TypeSOA][0].(*SOA)` — a panic when the
apex has no SOA RRset), then walk the tree in order handing each node and its successor
name to `ZoneData.Sign`.  The worker pool, channel capacity and `SignerRoutines` have no
further observable effect in this sequentialization; the first error stops the walk. -/
def Zone.Sign (z : Zone) (keys : List (DNSKEY × Nat)) (keytags : DNSKEY → Nat)
    (config : SignatureConfig) (env : SignEnv) (now : Nat) : SignResult :=
  let z1 := { z with ModTime := now }
  match toRadixName z1.Origin with
  | none => .panics
  | some originKey =>
    match treeFindExact z1.tree originKey with
    | none => .fails .missingSoa z1
    | some apex =>
      match mapGet apex.RR TypeSOA with
      | some (RR.soa _ minttl :: _) =>
        let config1 := { config with Minttl := minttl }
        let i0 := treeIndexOf z1.tree originKey
        match signWalk env keys keytags config1 z1.Origin (z1.tree.length + 1) i0 0 z1.tree with
        | .panics => .panics
        | .diverges => .diverges
        | .fails e t2 => .fails e { z1 with tree := t2 }
        | .ok t2 => .ok { z1 with tree := t2 }
      | _ => .panics

/-! ### Concrete signing inputs used by counterexamples and witnesses -/

/-- The wall clock of the concrete runs: 1 700 000 000 s after the epoch (late 2023),
in nanoseconds. -/
def env0 : SignEnv :=
  { nowNs := 1700000000000000000, sigSign := fun _ _ => some "sigbytes", rnd := fun _ => 0 }

/-- The default signature configuration on a 1-CPU machine. -/
def cfg0 : SignatureConfig := newSignatureConfig 1

/-- A zone-signing key (no SEP flag). -/
def key0 : DNSKEY :=
  { Hdr := { Name := "x.", Rrtype := 48, Class := 1, Ttl := 3600, Rdlength := 0 },
    Flags := 256, Protocol := 3, Algorithm := 8, PublicKey := "AwEAAc3Z" }

/-- The `KeyTag` capability of the RR module (outside src/), instantiated for the
concrete runs: every key of the run maps to tag 12345. -/
def keytags0 : DNSKEY → Nat := fun _ => 12345

/-- An RRSIG over the apex SOA made by `key0`, already expired at `env0`'s clock
(expiration 1 699 999 000 < now = 1 700 000 000). -/
def staleSig : RRSIG :=
  { Hdr := { Name := "x.", Rrtype := 46, Class := 1, Ttl := 3600, Rdlength := 0 },
    TypeCovered := 6, Algorithm := 8, Labels := 1, OrigTtl := 3600,
    Expiration := 1699999000, Inception := 1690000000, KeyTag := 12345,
    SignerName := "x.", Signature := "oldsig" }

/-- The apex of the C1 run: an SOA (minttl 300) and the stale SOA signature. -/
def c1apex : ZoneData :=
  { Name := "x.",
    RR := [(6, [RR.soa { Name := "x.", Rrtype := 6, Class := 1, Ttl := 3600,
                         Rdlength := 0 } 300])],
    Signatures := [(6, [staleSig])], NonAuth := false }

/-- The single-node zone of the C1 run. -/
def c1zone : Zone :=
  { Origin := "x.", olabels := ["x"], Wildcard := 0, expired := false, ModTime := 0,
    tree := [(".x", c1apex)] }

/-- An RRSIG over the A RRset at `w.x.` made by `key0`, expiring 60 s after `env0`'s
clock — remaining lifetime far below the 3-day refresh window. -/
def nearSig : RRSIG :=
  { Hdr := { Name := "w.x.", Rrtype := 46, Class := 1, Ttl := 300, Rdlength := 0 },
    TypeCovered := 1, Algorithm := 8, Labels := 2, OrigTtl := 300,
    Expiration := 1700000060, Inception := 1698000000, KeyTag := 12345,
    SignerName := "x.", Signature := "nearsig" }

/-- The node of the C2 run: an A RRset and its almost-expired signature. -/
def c2node : ZoneData :=
  { Name := "w.x.", RR := [(1, [rrWA])], Signatures := [(1, [nearSig])], NonAuth := false }

/-- The stored NSEC of the C3 run: correct next pointer, but a bitmap with the extra
type A (1) that is not present at the node. -/
def c3nsec : RR :=
  RR.nsec { Name := "w.x.", Rrtype := 47, Class := 1, Ttl := 300, Rdlength := 0 }
    "x." [1, 16, 46, 47]

/-- An RRSIG covering the NSEC at the C3 node. -/
def c3nsecSig : RRSIG :=
  { Hdr := { Name := "w.x.", Rrtype := 46, Class := 1, Ttl := 300, Rdlength := 0 },
    TypeCovered := 47, Algorithm := 8, Labels := 2, OrigTtl := 300,
    Expiration := 1710000000, Inception := 1698000000, KeyTag := 12345,
    SignerName := "x.", Signature := "nsecsig" }

/-- The node of the C3 run: a TXT RRset and the stale-bitmap NSEC with one signature. -/
def c3node : ZoneData :=
  { Name := "w.x.", RR := [(16, [rrWTXT]), (47, [c3nsec])],
    Signatures := [(47, [c3nsecSig])], NonAuth := false }

/-- The apex of the C7 counterexample: an NS RRset but no SOA. -/
def c7apex : ZoneData :=
  { Name := "x.",
    RR := [(2, [RR.ns { Name := "x.", Rrtype := 2, Class := 1, Ttl := 3600,
                        Rdlength := 0 } "n.x."])],
    Signatures := [], NonAuth := false }

/-- The zone of the C7 counterexample: its apex node exists but holds no SOA. -/
def c7zone : Zone :=
  { Origin := "x.", olabels := ["x"], Wildcard := 0, expired := false, ModTime := 0,
    tree := [(".x", c7apex)] }

/-! ### The OPT ttl accessors -/

/-- Embeds `OPT.Version` (the EDNS0 file): `uint8(rr.Hdr.Ttl & 0x00FF00FFFF)` — the
40-bit constant truncates to `0xFF00FFFF`, and the uint8 conversion keeps the LOW byte
of the masked ttl, not the version byte. -/
def OPT.Version (ttl : Nat) : Nat := (ttl &&& 0xFF00FFFF) % 256

/-- Embeds `OPT.SetVersion`: `rr.Hdr.Ttl = rr.Hdr.Ttl&0xFF00FFFF | uint32(v)` — the
mask clears the version byte (bits 16–23) but the value is OR-ed into bits 0–7 (the
shift `<< 16` is missing); `uint32(v)` of the `uint8` argument is `v % 256`. -/
def OPT.SetVersion (ttl v : Nat) : Nat := (ttl &&& 0xFF00FFFF) ||| (v % 256)

/-- Embeds `OPT.Do`: `byte(rr.Hdr.Ttl>>8) & _DO == _DO` with `_DO = 1<<7`: bit 15 of
the ttl. -/
def OPT.Do (ttl : Nat) : Bool := (((ttl >>> 8) % 256) &&& 128) == 128

/-- Embeds `OPT.SetDo`: split the ttl into its four bytes (`byte(x)` is `x % 256`), set
bit 7 of the third-highest byte (`b3 |= _DO`), and reassemble with shifts and ORs. -/
def OPT.SetDo (ttl : Nat) : Nat :=
  let b1 := (ttl >>> 24) % 256
  let b2 := (ttl >>> 16) % 256
  let b3 := (ttl >>> 8) % 256
  let b4 := ttl % 256
  let b3s := b3 ||| 128
  (b1 <<< 24) ||| (b2 <<< 16) ||| (b3s <<< 8) ||| b4

/-! ### EDNS0 option codecs -/

/-- Embeds the digit table of `encoding/hex` (Go stdlib): the value of an ASCII hex
digit — `48..57` are `'0'..'9'`, `97..102` are `'a'..'f'`, `65..70` are `'A'..'F'`. -/
def hexDigitVal (c : Char) : Option Nat :=
  if 48 ≤ c.toNat ∧ c.toNat ≤ 57 then some (c.toNat - 48)
  else if 97 ≤ c.toNat ∧ c.toNat ≤ 102 then some (c.toNat - 87)
  else if 65 ≤ c.toNat ∧ c.toNat ≤ 70 then some (c.toNat - 55)
  else none

/-- Embeds `hex.DecodeString` (Go stdlib): two digits per byte; fails on an odd length
or a non-digit. -/
def hexDecode : List Char → Option (List Nat)
  | [] => some []
  | [_] => none
  | c1 :: c2 :: rest =>
    match hexDigitVal c1, hexDigitVal c2, hexDecode rest with
    | some h, some l, some tail => some ((h * 16 + l) :: tail)
    | _, _, _ => none

/-- Embeds the encoding table of `encoding/hex`: lowercase digits
(`48 + n` is `'0'..'9'`, `87 + n` is `'a'..'f'`). -/
def hexDigitChar (n : Nat) : Char :=
  if n < 10 then Char.ofNat (48 + n) else Char.ofNat (87 + n)

/-- Embeds `hex.EncodeToString` (Go stdlib): each byte becomes `hextable[b>>4]`,
`hextable[b&0x0f]` (arguments are bytes, so `b / 16` is already below 16). -/
def hexEncode : List Nat → List Char
  | [] => []
  | b :: rest => hexDigitChar (b / 16 % 16) :: hexDigitChar (b % 16) :: hexEncode rest

/-- Embeds `EDNS0_NSID` (the EDNS0 file).  The `Nsid` string is the char list of the
Go string. -/
structure EDNS0_NSID where
  Code : Nat
  Nsid : List Char
deriving Repr, DecidableEq

/-- Embeds `EDNS0_NSID.pack`: `hex.DecodeString(e.Nsid)`; `none` is the returned decode
error. -/
def EDNS0_NSID.pack (e : EDNS0_NSID) : Option (List Nat) := hexDecode e.Nsid

/-- Embeds `EDNS0_NSID.unpack`: `e.Nsid = hex.EncodeToString(b)`; the `Code` field is
not touched. -/
def EDNS0_NSID.unpack (e : EDNS0_NSID) (b : List Nat) : EDNS0_NSID :=
  { e with Nsid := hexEncode b }

/-- The 12-byte `v4InV6Prefix` marker of the Go net package. -/
def v4InV6Pfx : List Nat := [0, 0, 0, 0, 0, 0, 0, 0, 0, 0, 255, 255]

/-- Embeds `net.IP.To4`: a 4-byte address as is, the low 4 bytes of a 16-byte
IPv4-mapped address, nil (`[]`) otherwise. -/
def goTo4 (a : List Nat) : List Nat :=
  if a.length = 4 then a
  else if a.length = 16 ∧ a.take 12 = v4InV6Pfx then a.drop 12
  else []

/-- Embeds `net.CIDRMask(ones, bits)`: `bits/8` bytes holding `ones` leading one bits
(a partial byte is `^byte(0xff >> n)` with `n` the remaining ones); nil when
`ones > bits`. -/
def cidrMask (ones bits : Nat) : List Nat :=
  if ones > bits then []
  else (List.range (bits / 8)).map (fun i =>
    if 8 * (i + 1) ≤ ones then 255
    else if ones ≤ 8 * i then 0
    else 255 - (255 >>> (ones - 8 * i)))

/-- Embeds `net.IP.Mask`: the 16-to-4 promotions of mask and address, nil on a length
mismatch, otherwise the bytewise AND. -/
def goMask (ip mask : List Nat) : List Nat :=
  let mask2 :=
    if mask.length = 16 ∧ ip.length = 4 ∧ mask.take 12 = List.replicate 12 255
    then mask.drop 12 else mask
  let ip2 :=
    if mask2.length = 4 ∧ ip.length = 16 ∧ ip.take 12 = v4InV6Pfx
    then ip.drop 12 else ip
  if ip2.length ≠ mask2.length then []
  else List.zipWith (fun x y => x &&& y) ip2 mask2

/-- Embeds `net.IPv4(a, b, c, d)`: the 16-byte IPv4-mapped form. -/
def goIPv4 (a b c d : Nat) : List Nat := v4InV6Pfx ++ [a, b, c, d]

/-- Embeds the address-copy loop of `EDNS0_SUBNET.pack`:
`for i := 0; i < width; i++ { if i+1 > len(e.Address) { break }; ip[i] = a[i] }`.
`ip` starts zeroed; reading `a[i]` panics (`none`) when the masked address `a` is
shorter (nil after a length mismatch in `Mask`) while the original address is not. -/
def subnetCopyLoop (a : List Nat) (addrLen : Nat) : Nat → Nat → List Nat → Option (List Nat)
  | 0, _, ip => some ip
  | fuel + 1, i, ip =>
    if i + 1 > addrLen then some ip
    else
      match a.get? i with
      | none => none
      | some x => subnetCopyLoop a addrLen fuel (i + 1) (ip.set i x)

/-- Embeds `EDNS0_SUBNET` (the EDNS0 file); the address is the byte list of the
`net.IP`. -/
structure EDNS0_SUBNET where
  Code : Nat
  Family : Nat
  SourceNetmask : Nat
  SourceScope : Nat
  Address : List Nat
deriving Repr, DecidableEq

/-- Embeds `packUint16` (wire helper outside src/; modelled from the spec's big-endian
wire layout): the two bytes of a 16-bit value. -/
def packUint16 (n : Nat) : Nat × Nat := (n / 256 % 256, n % 256)

/-- Embeds `unpackUint16(b, off)` (wire helper outside src/; modelled from the spec):
big-endian 16-bit read; `b[i]` entries are bytes. -/
def unpackUint16 (b : List Nat) (off : Nat) : Nat :=
  (b.getD off 0) % 256 * 256 + (b.getD (off + 1) 0) % 256

/-- Embeds `EDNS0_SUBNET.pack`: family and netmask/scope header bytes, then the
full-width masked address (BadNetmask when the netmask exceeds the family's width,
BadFamily for families other than 1 and 2).  The netmask and scope fields are `uint8`
in Go; the `% 256` makes the byte width explicit. -/
def EDNS0_SUBNET.pack (e : EDNS0_SUBNET) : GoVal DnsErr (List Nat) :=
  let b0 := (packUint16 e.Family).1
  let b1 := (packUint16 e.Family).2
  if e.Family = 1 then
    if e.SourceNetmask > 32 then .err .badNetmask
    else
      let a := goMask (goTo4 e.Address) (cidrMask e.SourceNetmask 32)
      match subnetCopyLoop a e.Address.length 4 0 (List.replicate 4 0) with
      | none => .panicked
      | some ip => .ok ([b0, b1, e.SourceNetmask % 256, e.SourceScope % 256] ++ ip)
  else if e.Family = 2 then
    if e.SourceNetmask > 128 then .err .badNetmask
    else
      let a := goMask e.Address (cidrMask e.SourceNetmask 128)
      match subnetCopyLoop a e.Address.length 16 0 (List.replicate 16 0) with
      | none => .panicked
      | some ip => .ok ([b0, b1, e.SourceNetmask % 256, e.SourceScope % 256] ++ ip)
  else .err .badFamily

/-- Embeds `EDNS0_SUBNET.unpack`: under 8 bytes nothing happens; family, netmask and
scope are read unconditionally; the address is read only for the exact total lengths
8 (IPv4, via `net.IPv4`) and 20 (IPv6, the 16 raw bytes), otherwise it is left as it
was. -/
def EDNS0_SUBNET.unpack (e : EDNS0_SUBNET) (b : List Nat) : EDNS0_SUBNET :=
  if b.length < 8 then e
  else
    let e1 : EDNS0_SUBNET :=
      { e with Family := unpackUint16 b 0, SourceNetmask := b.getD 2 0,
               SourceScope := b.getD 3 0 }
    if unpackUint16 b 0 = 1 then
      if b.length = 8 then
        { e1 with Address := goIPv4 (b.getD 4 0) (b.getD 5 0) (b.getD 6 0) (b.getD 7 0) }
      else e1
    else if unpackUint16 b 0 = 2 then
      if b.length = 20 then { e1 with Address := b.drop 4 } else e1
    else e1

/-- Embeds `EDNS0_UPDATE_LEASE` (the EDNS0 file). -/
structure EDNS0_UPDATE_LEASE where
  Code : Nat
  Lease : Nat
deriving Repr, DecidableEq

/-- Embeds `EDNS0_UPDATE_LEASE.pack`: the four big-endian bytes of the 32-bit lease
(`byte(x >> k)` is `x / 2^k % 256`). -/
def EDNS0_UPDATE_LEASE.pack (e : EDNS0_UPDATE_LEASE) : List Nat :=
  [e.Lease / 16777216 % 256, e.Lease / 65536 % 256, e.Lease / 256 % 256, e.Lease % 256]

/-- Embeds `EDNS0_UPDATE_LEASE.unpack`: big-endian 32-bit read of `b[0..3]`
(`uint32(b[0])<<24 | ...`; the OR of disjoint byte fields equals their sum).
Reading a buffer shorter than 4 bytes panics (`none`). -/
def EDNS0_UPDATE_LEASE.unpack (e : EDNS0_UPDATE_LEASE) (b : List Nat) :
    Option EDNS0_UPDATE_LEASE :=
  if b.length < 4 then none
  else some { e with Lease :=
    (b.getD 0 0) % 256 * 16777216 + (b.getD 1 0) % 256 * 65536 +
      (b.getD 2 0) % 256 * 256 + (b.getD 3 0) % 256 }

/-- Embeds `EDNS0_LLQ` (the EDNS0 file). -/
structure EDNS0_LLQ where
  Code : Nat
  Version : Nat
  LLQOpcode : Nat
  ErrorCode : Nat
  LLQID : Nat
  LeaseLife : Nat
deriving Repr, DecidableEq

/-- Embeds `EDNS0_LLQ.pack`: 18 big-endian bytes — version:16, opcode:16, error:16,
id:64, lease:32 (`byte(x >> k)` is `x / 2^k % 256`). -/
def EDNS0_LLQ.pack (e : EDNS0_LLQ) : List Nat :=
  [e.Version / 256 % 256, e.Version % 256,
   e.LLQOpcode / 256 % 256, e.LLQOpcode % 256,
   e.ErrorCode / 256 % 256, e.ErrorCode % 256,
   e.LLQID / 72057594037927936 % 256, e.LLQID / 281474976710656 % 256,
   e.LLQID / 1099511627776 % 256, e.LLQID / 4294967296 % 256,
   e.LLQID / 16777216 % 256, e.LLQID / 65536 % 256,
   e.LLQID / 256 % 256, e.LLQID % 256,
   e.LeaseLife / 16777216 % 256, e.LeaseLife / 65536 % 256,
   e.LeaseLife / 256 % 256, e.LeaseLife % 256]

/-- Embeds `EDNS0_LLQ.unpack`: big-endian reads of `b[0..17]` (ORs of disjoint byte
fields written as sums); a buffer shorter than 18 bytes panics (`none`). -/
def EDNS0_LLQ.unpack (e : EDNS0_LLQ) (b : List Nat) : Option EDNS0_LLQ :=
  if b.length < 18 then none
  else some { e with
    Version := (b.getD 0 0) % 256 * 256 + (b.getD 1 0) % 256,
    LLQOpcode := (b.getD 2 0) % 256 * 256 + (b.getD 3 0) % 256,
    ErrorCode := (b.getD 4 0) % 256 * 256 + (b.getD 5 0) % 256,
    LLQID := (b.getD 6 0) % 256 * 72057594037927936 +
      (b.getD 7 0) % 256 * 281474976710656 + (b.getD 8 0) % 256 * 1099511627776 +
      (b.getD 9 0) % 256 * 4294967296 + (b.getD 10 0) % 256 * 16777216 +
      (b.getD 11 0) % 256 * 65536 + (b.getD 12 0) % 256 * 256 + (b.getD 13 0) % 256,
    LeaseLife := (b.getD 14 0) % 256 * 16777216 + (b.getD 15 0) % 256 * 65536 +
      (b.getD 16 0) % 256 * 256 + (b.getD 17 0) % 256 }

/-- Claim-side: an ASCII lowercase hex digit. -/
def isLowerHexDigit (c : Char) : Bool :=
  (decide (48 ≤ c.toNat) && decide (c.toNat ≤ 57)) ||
    (decide (97 ≤ c.toNat) && decide (c.toNat ≤ 102))

/-- The NSID option of the C8 counterexample: uppercase hex text. -/
def nsidAB : EDNS0_NSID := { Code := 3, Nsid := ['A', 'B'] }

/-! ## General lemmas about the zone mutators -/

theorem insert_wildcard_nonneg (z : Zone) (r : RR) (now : Nat) (z2 : Zone)
    (h0 : 0 ≤ z.Wildcard) (h : Zone.Insert z r now = .ok z2) : 0 ≤ z2.Wildcard := by
  simp only [Zone.Insert] at h
  repeat' split at h
  all_goals first
    | exact GoVal.noConfusion h
    | (injection h with h; subst h; dsimp only; omega)

theorem remove_wildcard_nonneg (z : Zone) (r : RR) (now : Nat) (z2 : Zone)
    (h0 : 0 ≤ z.Wildcard) (h : Zone.Remove z r now = .ok z2) : 0 ≤ z2.Wildcard := by
  simp only [Zone.Remove] at h
  repeat' split at h
  all_goals first
    | exact GoVal.noConfusion h
    | (injection h with h; subst h; dsimp only; omega)

theorem removeName_wildcard_nonneg (z : Zone) (s : String) (now : Nat) (z2 : Zone)
    (h0 : 0 ≤ z.Wildcard) (h : Zone.RemoveName z s now = .ok z2) : 0 ≤ z2.Wildcard := by
  simp only [Zone.RemoveName] at h
  repeat' split at h
  all_goals first
    | exact GoVal.noConfusion h
    | (injection h with h; subst h; dsimp only; omega)

theorem removeRRset_wildcard_nonneg (z : Zone) (s : String) (t : Nat) (now : Nat) (z2 : Zone)
    (h0 : 0 ≤ z.Wildcard) (h : Zone.RemoveRRset z s t now = .ok z2) : 0 ≤ z2.Wildcard := by
  simp only [Zone.RemoveRRset] at h
  repeat' split at h
  all_goals first
    | exact GoVal.noConfusion h
    | (injection h with h; subst h; dsimp only; omega)

theorem applyOp_wildcard_nonneg (z : Zone) (op : ZoneOp) (z2 : Zone)
    (h0 : 0 ≤ z.Wildcard) (h : applyOp z op = some z2) : 0 ≤ z2.Wildcard := by
  cases op with
  | ins r now =>
    simp only [applyOp] at h
    split at h
    · exact Option.noConfusion h
    · injection h with h; subst h; exact h0
    · injection h with h; subst h
      exact insert_wildcard_nonneg z r now _ h0 (by assumption)
  | rem r now =>
    simp only [applyOp] at h
    split at h
    · exact Option.noConfusion h
    · injection h with h; subst h; exact h0
    · injection h with h; subst h
      exact remove_wildcard_nonneg z r now _ h0 (by assumption)
  | remName s now =>
    simp only [applyOp] at h
    split at h
    · exact Option.noConfusion h
    · injection h with h; subst h; exact h0
    · injection h with h; subst h
      exact removeName_wildcard_nonneg z s now _ h0 (by assumption)
  | remRRset s t now =>
    simp only [applyOp] at h
    split at h
    · exact Option.noConfusion h
    · injection h with h; subst h; exact h0
    · injection h with h; subst h
      exact removeRRset_wildcard_nonneg z s t now _ h0 (by assumption)

theorem applyOps_wildcard_nonneg (ops : List ZoneOp) (z z2 : Zone)
    (h0 : 0 ≤ z.Wildcard) (h : applyOps z ops = some z2) : 0 ≤ z2.Wildcard := by
  induction ops generalizing z with
  | nil => simp only [applyOps] at h; injection h with h; subst h; exact h0
  | cons op rest ih =>
    simp only [applyOps] at h
    split at h
    · exact Option.noConfusion h
    · exact ih _ (applyOp_wildcard_nonneg z op _ h0 (by assumption)) h

/-! ## General lemmas about the OPT ttl accessors -/

theorem or_eq_add_pow {i : Nat} (a b : Nat) (h : b < 2 ^ i) :
    (2 ^ i * a) ||| b = 2 ^ i * a + b := (Nat.mul_add_lt_is_or h a).symm

theorem orAdd24 (a b : Nat) (h : b < 16777216) : (a * 16777216) ||| b = a * 16777216 + b := by
  have h2 : b < 2 ^ 24 := by norm_num; exact h
  have h3 := or_eq_add_pow a b h2
  have e : (2 : Nat) ^ 24 * a = a * 16777216 := by norm_num [Nat.mul_comm]
  rw [e] at h3
  exact h3

theorem orAdd16 (a b : Nat) (h : b < 65536) : (a * 65536) ||| b = a * 65536 + b := by
  have h2 : b < 2 ^ 16 := by norm_num; exact h
  have h3 := or_eq_add_pow a b h2
  have e : (2 : Nat) ^ 16 * a = a * 65536 := by norm_num [Nat.mul_comm]
  rw [e] at h3
  exact h3

theorem orAdd8 (a b : Nat) (h : b < 256) : (a * 256) ||| b = a * 256 + b := by
  have h2 : b < 2 ^ 8 := by norm_num; exact h
  have h3 := or_eq_add_pow a b h2
  have e : (2 : Nat) ^ 8 * a = a * 256 := by norm_num [Nat.mul_comm]
  rw [e] at h3
  exact h3

theorem lor_lt_256 (a b : Nat) (ha : a < 256) (hb : b < 256) : a ||| b < 256 := by
  have h1 : a < 2 ^ 8 := by norm_num; exact ha
  have h2 : b < 2 ^ 8 := by norm_num; exact hb
  have := Nat.or_lt_two_pow h1 h2
  norm_num at this
  exact this

theorem lor128_eq (b : Nat) (hb : b < 256) : b ||| 128 = b % 128 + 128 := by
  rcases Nat.lt_or_ge b 128 with h | h
  · have h2 : (2 : Nat) ^ 7 * 1 ||| b = 2 ^ 7 * 1 + b := or_eq_add_pow 1 b (by norm_num; exact h)
    norm_num at h2
    rw [Nat.lor_comm, h2]
    omega
  · have h3 : (2 : Nat) ^ 7 * 1 ||| (b - 128) = 2 ^ 7 * 1 + (b - 128) :=
      or_eq_add_pow 1 (b - 128) (by norm_num; omega)
    norm_num at h3
    have hb2 : b = 128 ||| (b - 128) := by rw [h3]; omega
    calc b ||| 128 = (128 ||| (b - 128)) ||| 128 := by rw [← hb2]
    _ = 128 ||| ((b - 128) ||| 128) := Nat.lor_assoc 128 (b - 128) 128
    _ = 128 ||| (128 ||| (b - 128)) := by rw [Nat.lor_comm (b - 128) 128]
    _ = (128 ||| 128) ||| (b - 128) := (Nat.lor_assoc 128 128 (b - 128)).symm
    _ = 128 ||| (b - 128) := by rw [Nat.or_self]
    _ = b := hb2.symm
    _ = b % 128 + 128 := by omega

theorem setDo_arith (ttl : Nat) :
    OPT.SetDo ttl =
      ttl / 16777216 % 256 * 16777216 + ttl / 65536 % 256 * 65536 +
        ((ttl / 256 % 256) ||| 128) * 256 + ttl % 256 := by
  unfold OPT.SetDo
  simp only [Nat.shiftRight_eq_div_pow, Nat.shiftLeft_eq]
  norm_num
  rw [orAdd24 _ _ (by have := Nat.mod_lt (ttl / 65536) (show 0 < 256 by norm_num); omega)]
  rw [show ttl / 16777216 % 256 * 16777216 + ttl / 65536 % 256 * 65536
        = (ttl / 16777216 % 256 * 256 + ttl / 65536 % 256) * 65536 by ring]
  rw [orAdd16 _ _ (by
    have h1 : ttl / 256 % 256 < 256 := Nat.mod_lt _ (by norm_num)
    have h2 := lor_lt_256 (ttl / 256 % 256) 128 h1 (by norm_num)
    omega)]
  rw [show (ttl / 16777216 % 256 * 256 + ttl / 65536 % 256) * 65536 +
        (ttl / 256 % 256 ||| 128) * 256
        = (ttl / 16777216 % 256 * 65536 + ttl / 65536 % 256 * 256 +
            (ttl / 256 % 256 ||| 128)) * 256 by ring]
  rw [orAdd8 _ _ (Nat.mod_lt _ (by norm_num))]

theorem land_FF00FFFF (ttl : Nat) (h : ttl < 4294967296) :
    ttl &&& 0xFF00FFFF = 16777216 * (ttl / 16777216) + ttl % 65536 := by
  apply Nat.eq_of_testBit_eq
  intro j
  have hM : (0xFF00FFFF : Nat) = 2 ^ 24 * 255 + 65535 := by norm_num
  have hRHS : 16777216 * (ttl / 16777216) + ttl % 65536
      = 2 ^ 24 * (ttl / 2 ^ 24) + ttl % 2 ^ 16 := by norm_num
  rw [Nat.testBit_and, hM, hRHS]
  rw [Nat.testBit_mul_pow_two_add _ (show (65535 : Nat) < 2 ^ 24 by norm_num) j]
  rw [Nat.testBit_mul_pow_two_add _
    (show ttl % 2 ^ 16 < 2 ^ 24 from lt_trans (Nat.mod_lt _ (by norm_num)) (by norm_num)) j]
  by_cases h24 : j < 24
  · simp only [if_pos h24]
    rw [Nat.testBit_mod_two_pow]
    rw [show (65535 : Nat) = 2 ^ 16 - 1 by norm_num, Nat.testBit_two_pow_sub_one]
    rw [Bool.and_comm]
  · simp only [if_neg h24]
    have hdiv : Nat.testBit (ttl / 2 ^ 24) (j - 24) = Nat.testBit ttl (24 + (j - 24)) := by
      rw [← Nat.shiftRight_eq_div_pow, Nat.testBit_shiftRight]
    have hj : 24 + (j - 24) = j := by omega
    rw [hdiv, hj]
    rw [show (255 : Nat) = 2 ^ 8 - 1 by norm_num, Nat.testBit_two_pow_sub_one]
    by_cases h32 : j < 32
    · have hlt : j - 24 < 8 := by omega
      simp [hlt]
    · have hf : Nat.testBit ttl j = false := by
        apply Nat.testBit_lt_two_pow
        calc ttl < 4294967296 := h
        _ = 2 ^ 32 := by norm_num
        _ ≤ 2 ^ j := Nat.pow_le_pow_right (by norm_num) (by omega)
      have hlt : ¬ (j - 24 < 8) := by omega
      simp [hf, hlt]

theorem or_low8 (x v : Nat) (hv : v < 256) : x ||| v = 256 * (x / 256) + ((x % 256) ||| v) := by
  have hov : (x % 256) ||| v < 2 ^ 8 := by
    norm_num; exact lor_lt_256 _ _ (Nat.mod_lt _ (by norm_num)) hv
  calc x ||| v = (2 ^ 8 * (x / 2 ^ 8) + x % 2 ^ 8) ||| v := by
        rw [Nat.div_add_mod x (2 ^ 8)]
  _ = ((2 ^ 8 * (x / 2 ^ 8)) ||| (x % 2 ^ 8)) ||| v := by
        rw [← Nat.mul_add_lt_is_or (Nat.mod_lt _ (by norm_num)) (x / 2 ^ 8)]
  _ = (2 ^ 8 * (x / 2 ^ 8)) ||| ((x % 2 ^ 8) ||| v) := Nat.lor_assoc _ _ _
  _ = 2 ^ 8 * (x / 2 ^ 8) + ((x % 2 ^ 8) ||| v) := by
        rw [Nat.mul_add_lt_is_or (by norm_num at hov ⊢; exact hov) (x / 2 ^ 8)]
  _ = 256 * (x / 256) + ((x % 256) ||| v) := by norm_num

theorem setVersion_arith (ttl v : Nat) (ht : ttl < 4294967296) (hv : v < 256) :
    OPT.SetVersion ttl v =
      16777216 * (ttl / 16777216) + ttl / 256 % 256 * 256 + ((ttl % 256) ||| v) := by
  unfold OPT.SetVersion
  rw [Nat.mod_eq_of_lt hv]
  rw [or_low8 _ v hv]
  have hl := land_FF00FFFF ttl ht
  have h1 : (ttl &&& 0xFF00FFFF) / 256 = 65536 * (ttl / 16777216) + ttl % 65536 / 256 := by omega
  have h2 : (ttl &&& 0xFF00FFFF) % 256 = ttl % 256 := by omega
  rw [h1, h2]
  have h3 : ttl % 65536 / 256 = ttl / 256 % 256 := by omega
  rw [h3]
  omega

/-! ## General lemmas about the EDNS0 codecs -/

theorem hexDigit_inv (c : Char) (h : isLowerHexDigit c = true) :
    ∃ v, hexDigitVal c = some v ∧ v < 16 ∧ hexDigitChar v = c := by
  unfold isLowerHexDigit at h
  simp only [Bool.or_eq_true, Bool.and_eq_true, decide_eq_true_eq] at h
  unfold hexDigitVal hexDigitChar
  rcases h with ⟨h1, h2⟩ | ⟨h1, h2⟩
  · refine ⟨c.toNat - 48, ?_, by omega, ?_⟩
    · rw [if_pos ⟨h1, h2⟩]
    · rw [if_pos (by omega)]
      rw [show 48 + (c.toNat - 48) = c.toNat by omega]
      exact Char.ofNat_toNat c
  · refine ⟨c.toNat - 87, ?_, by omega, ?_⟩
    · rw [if_neg (by omega), if_pos ⟨h1, h2⟩]
    · rw [if_neg (by omega)]
      rw [show 87 + (c.toNat - 87) = c.toNat by omega]
      exact Char.ofNat_toNat c

theorem hexRoundTrip : (s : List Char) → (∀ c ∈ s, isLowerHexDigit c = true) →
    s.length % 2 = 0 → ∃ b, hexDecode s = some b ∧ hexEncode b = s
  | [], _, _ => ⟨[], rfl, rfl⟩
  | [_], _, hlen => by simp at hlen
  | c1 :: c2 :: rest, h, hlen => by
    obtain ⟨b, hb1, hb2⟩ := hexRoundTrip rest
      (fun c hc => h c (by simp [hc]))
      (by simp [List.length_cons] at hlen ⊢; omega)
    obtain ⟨v1, hv1, hv1lt, hv1c⟩ := hexDigit_inv c1 (h c1 (by simp))
    obtain ⟨v2, hv2, hv2lt, hv2c⟩ := hexDigit_inv c2 (h c2 (by simp))
    refine ⟨(v1 * 16 + v2) :: b, ?_, ?_⟩
    · unfold hexDecode
      rw [hv1, hv2, hb1]
    · unfold hexEncode
      rw [hb2, show (v1 * 16 + v2) / 16 % 16 = v1 by omega,
        show (v1 * 16 + v2) % 16 = v2 by omega, hv1c, hv2c]

theorem nsid_roundtrip (e : EDNS0_NSID) (h1 : ∀ c ∈ e.Nsid, isLowerHexDigit c = true)
    (h2 : e.Nsid.length % 2 = 0) : ∃ b, e.pack = some b ∧ e.unpack b = e := by
  obtain ⟨b, hb1, hb2⟩ := hexRoundTrip e.Nsid h1 h2
  exact ⟨b, hb1, by unfold EDNS0_NSID.unpack; rw [hb2]⟩

theorem subnet4_roundtrip (code n scope a0 a1 a2 a3 : Nat) (hn : n ≤ 32)
    (hs : scope < 256)
    (hmask : goMask [a0, a1, a2, a3] (cidrMask n 32) = [a0, a1, a2, a3]) :
    (EDNS0_SUBNET.pack
        { Code := code, Family := 1, SourceNetmask := n, SourceScope := scope,
          Address := goIPv4 a0 a1 a2 a3 }) = .ok ([0, 1, n, scope, a0, a1, a2, a3]) ∧
    (EDNS0_SUBNET.unpack
        { Code := code, Family := 1, SourceNetmask := n, SourceScope := scope,
          Address := goIPv4 a0 a1 a2 a3 } [0, 1, n, scope, a0, a1, a2, a3]) =
      { Code := code, Family := 1, SourceNetmask := n, SourceScope := scope,
        Address := goIPv4 a0 a1 a2 a3 } := by
  constructor
  · unfold EDNS0_SUBNET.pack
    simp only [goIPv4, v4InV6Pfx]
    rw [show goTo4 ([0, 0, 0, 0, 0, 0, 0, 0, 0, 0, 255, 255] ++ [a0, a1, a2, a3])
          = [a0, a1, a2, a3] from rfl]
    rw [hmask]
    simp only [packUint16]
    norm_num
    rw [if_neg (by omega)]
    rw [show subnetCopyLoop [a0, a1, a2, a3] 16 4 0 (List.replicate 4 0)
          = some [a0, a1, a2, a3] from rfl]
    rw [Nat.mod_eq_of_lt (by omega : n < 256), Nat.mod_eq_of_lt hs]
  · unfold EDNS0_SUBNET.unpack
    simp only [unpackUint16]
    norm_num


set_option maxHeartbeats 2000000 in
theorem subnet6_roundtrip (code n scope x0 x1 x2 x3 x4 x5 x6 x7 x8 x9 x10 x11 x12 x13 x14 x15 : Nat)
    (hn : n ≤ 128) (hs : scope < 256)
    (hmask : goMask [x0, x1, x2, x3, x4, x5, x6, x7, x8, x9, x10, x11, x12, x13, x14, x15]
        (cidrMask n 128)
      = [x0, x1, x2, x3, x4, x5, x6, x7, x8, x9, x10, x11, x12, x13, x14, x15]) :
    (EDNS0_SUBNET.pack
        { Code := code, Family := 2, SourceNetmask := n, SourceScope := scope,
          Address := [x0, x1, x2, x3, x4, x5, x6, x7, x8, x9, x10, x11, x12, x13, x14, x15] })
      = .ok ([0, 2, n, scope] ++
          [x0, x1, x2, x3, x4, x5, x6, x7, x8, x9, x10, x11, x12, x13, x14, x15]) ∧
    (EDNS0_SUBNET.unpack
        { Code := code, Family := 2, SourceNetmask := n, SourceScope := scope,
          Address := [x0, x1, x2, x3, x4, x5, x6, x7, x8, x9, x10, x11, x12, x13, x14, x15] }
        ([0, 2, n, scope] ++
          [x0, x1, x2, x3, x4, x5, x6, x7, x8, x9, x10, x11, x12, x13, x14, x15]))
      = { Code := code, Family := 2, SourceNetmask := n, SourceScope := scope,
          Address := [x0, x1, x2, x3, x4, x5, x6, x7, x8, x9, x10, x11, x12, x13, x14, x15] } := by
  constructor
  · unfold EDNS0_SUBNET.pack
    simp only [packUint16]
    norm_num
    rw [if_neg (by omega)]
    rw [hmask]
    rw [show subnetCopyLoop
          [x0, x1, x2, x3, x4, x5, x6, x7, x8, x9, x10, x11, x12, x13, x14, x15] 16 16 0
          (List.replicate 16 0)
        = some [x0, x1, x2, x3, x4, x5, x6, x7, x8, x9, x10, x11, x12, x13, x14, x15] from rfl]
    rw [Nat.mod_eq_of_lt (by omega : n < 256), Nat.mod_eq_of_lt hs]
  · unfold EDNS0_SUBNET.unpack
    simp only [unpackUint16]
    norm_num

theorem lease_roundtrip (e : EDNS0_UPDATE_LEASE) (h : e.Lease < 4294967296) :
    e.unpack e.pack = some e := by
  obtain ⟨c, vL⟩ := e
  simp only at h
  unfold EDNS0_UPDATE_LEASE.pack EDNS0_UPDATE_LEASE.unpack
  norm_num
  omega

theorem llq_roundtrip (e : EDNS0_LLQ) (h1 : e.Version < 65536) (h2 : e.LLQOpcode < 65536)
    (h3 : e.ErrorCode < 65536) (h4 : e.LLQID < 18446744073709551616)
    (h5 : e.LeaseLife < 4294967296) :
    e.unpack e.pack = some e := by
  obtain ⟨c, vV, vO, vE, vI, vL⟩ := e
  simp only at h1 h2 h3 h4 h5
  unfold EDNS0_LLQ.pack EDNS0_LLQ.unpack
  norm_num
  omega


/-! ## Claim theorems -/

/-- C4 (counterexample evaluation): `toRadixName` does not preserve DNSSEC canonical
order.  The in-zone names `a.a.b.` and `a-.b.` (both under origin `b.`) satisfy:
`a.a.b.` precedes `a-.b.` in canonical order (its second label `a` is a strict prefix of
`a-`), yet its radix key `.b.a.a` is bytewise greater than `.b.a-`, because the label
separator `.` (0x2e) sorts above `-` (0x2d).  This contradicts the function's stated
purpose of preserving the NSEC ordering. -/
theorem c4_toRadixName_order_not_preserved :
    toRadixName "a.a.b." = some ".b.a.a" ∧
    toRadixName "a-.b." = some ".b.a-" ∧
    specCanonicalLt "a.a.b." "a-.b." = true ∧
    bytesLt ".b.a-".data ".b.a.a".data = true ∧
    bytesLt ".b.a.a".data ".b.a-".data = false :=
  ⟨by decide, by decide, by decide, by decide, by decide⟩

/-- C10: under the total embedding, the final slice `s[:len(s)-1]` of `toRadixName` is
evaluated with `s` empty at the owner name `a\.` (a non-empty name whose only dot is
escaped), i.e. the out-of-range-slice panic branch is taken; and the branch is reachable
through the public interface: `Find` and `Remove` apply `toRadixName` to any
caller-supplied name, and `Insert` does so after only the in-zone label comparison
(which the name passes, e.g., in a root-origin zone). -/
theorem c10_toRadixName_panic_reachable :
    toRadixName "a\\." = none ∧
    (∀ z : Zone, Zone.Find z "a\\." = .panicked) ∧
    (∀ z : Zone, ∀ now : Nat, Zone.Remove z rrEscaped now = .panicked) ∧
    (∀ now : Nat, Zone.Insert zoneRoot rrEscaped now = .panicked) :=
  ⟨by decide, fun _ => rfl, fun _ _ => rfl, fun _ => rfl⟩

/-- C10 witness: the reachability statements applied to a concrete zone and clock. -/
theorem c10_witness :
    Zone.Find zoneX "a\\." = .panicked ∧
    Zone.Remove zoneX rrEscaped 5 = .panicked ∧
    Zone.Insert zoneRoot rrEscaped 5 = .panicked :=
  ⟨c10_toRadixName_panic_reachable.2.1 zoneX,
   c10_toRadixName_panic_reachable.2.2.1 zoneX 5,
   c10_toRadixName_panic_reachable.2.2.2 5⟩

/-- C5 counterexample: starting from an empty zone with origin `x.`, inserting an A and
an AAAA record at `*.x.` and then removing the A record leaves `Wildcard = 0` while one
node with leftmost label `*` is still in the tree (`Remove` decrements the counter for
every successful record removal at a `*.` owner, not only when the node disappears). -/
theorem c5_wildcard_counter_counterexample :
    (applyOps zoneX [.ins rrStarA 1, .ins rrStarAAAA 2, .rem rrStarA 3]).map
      (fun zf => (zf.Wildcard, countWildcardNodes zf)) = some (0, 1) := by
  decide

/-- C5 (amended): after any sequence of `Insert`, `Remove`, `RemoveName` and
`RemoveRRset` operations that completes without a panic, the `Wildcard` counter is
non-negative (every decrement is clamped at zero); it does not in general equal the
number of wildcard nodes in the tree. -/
theorem c5_wildcard_nonneg_after_ops (z : Zone) (ops : List ZoneOp) (z2 : Zone)
    (h0 : 0 ≤ z.Wildcard) (h : applyOps z ops = some z2) : 0 ≤ z2.Wildcard :=
  applyOps_wildcard_nonneg ops z z2 h0 h

/-- C5 witness: the amended claim applied to a concrete run. -/
theorem c5_wildcard_nonneg_witness : 0 ≤ zoneXStarA.Wildcard :=
  c5_wildcard_nonneg_after_ops zoneX [ZoneOp.ins rrStarA 1] zoneXStarA (by decide) (by decide)

/-- C1 (failing evaluation): on a single-node zone whose apex holds an SOA and one
already-expired RRSIG over it with the signing key's tag, `Sign` completes without
error, yet the expired signature is still there afterwards — with
`expiration = 1699999000 < now = 1700000000` the claim's `now < expiration` fails.
The refresh condition `now.Sub(uint32ToTime(q.Expiration)) < config.Refresh` compares
`now` against the epoch (for any clock before 2038, `uint32ToTime` returns the epoch,
since `mod` clamps to zero and the duration is `mod*year68*t` nanoseconds), so it is
false for every realistic clock: existing signatures are never refreshed, and the final
sweep never drops them either. -/
theorem c1_stale_rrsig_survives_sign :
    (match Zone.Sign c1zone [(key0, 7)] keytags0 cfg0 env0 9 with
     | .ok z2 => (treeFindExact z2.tree ".x").map (fun nd => mapGetD nd.Signatures TypeSOA)
     | _ => none) = some [staleSig] ∧
    staleSig.Expiration < 1700000000 ∧
    timeUnix env0.nowNs = 1700000000 :=
  ⟨by decide, by decide, by decide⟩

/-- C2 (failing evaluation): at a node holding an A RRset and an existing RRSIG by the
signing key whose remaining lifetime is 60 s — far below the 3-day refresh window — the
per-node signing pass leaves the old signature bucket exactly as it was (the fresh
inception would be 1699999700; the kept record still has inception 1698000000).  The
claim requires it to be replaced: its remaining lifetime (60 s) is below `Refresh`
(259200 s), as the second conjunct states. -/
theorem c2_almost_expired_sig_kept :
    (match ZoneData.Sign env0 c2node "x." [(key0, 7)] keytags0 cfg0 0 with
     | .ok (nd, _) => some (mapGetD nd.Signatures TypeA)
     | _ => none) = some [nearSig] ∧
    (nearSig.Expiration : Int) - timeUnix env0.nowNs < Int.tdiv cfg0.Refresh 1000000000 :=
  ⟨by decide, by decide⟩

/-- C3 counterexample: the node holds a TXT RRset and an NSEC whose next pointer is
correct but whose stored bitmap `[1, 16, 46, 47]` carries the extra type A (1); the
computed bitmap is `[16, 46, 47]`, so the two are not element-wise equal and the claim
requires an overwrite — yet the NSEC phase leaves the node (bitmap and NSEC signature
included) completely unchanged, because `bitmapEqual` only checks that each present type
occurs in the stored bitmap. -/
theorem c3_nsec_counterexample :
    ZoneData.signNsecPhase c3node "x." cfg0 = some c3node ∧
    sortNats (bitmapLoop (some [1, 16, 46, 47]) (c3node.RR.map (fun p => p.1))
      [TypeNSEC, TypeRRSIG] true).1 = [16, 46, 47] ∧
    ([1, 16, 46, 47] : List Nat) ≠ [16, 46, 47] :=
  ⟨by decide, by decide, by decide⟩

/-- C3 (amended): when the node already holds an NSEC, its NextDomain and TypeBitMap
are overwritten (and all RRSIGs covering NSEC dropped) if and only if the stored
NextDomain differs from the successor passed in, or some RR type present at the node is
not found in the stored bitmap by the sorted scan; extra types in the stored bitmap are
not detected, so bitmap inequality alone does not force an overwrite.  Otherwise the
NSEC and its signatures are left unchanged. -/
theorem c3_amended_nsec_condition (node : ZoneData) (next : String)
    (config : SignatureConfig) (hdr : RR_Header) (nd0 : String) (bm0 : List Nat)
    (restn : List RR)
    (h : mapGet node.RR TypeNSEC = some (RR.nsec hdr nd0 bm0 :: restn)) :
    ZoneData.signNsecPhase node next config =
      (if nd0 ≠ next ∨
          (bitmapLoop (some bm0) (node.RR.map (fun p => p.1)) [TypeNSEC, TypeRRSIG] true).2
            = false then
        some { node with
          RR := mapSet node.RR TypeNSEC (RR.nsec hdr next
            (sortNats (bitmapLoop (some bm0) (node.RR.map (fun p => p.1))
              [TypeNSEC, TypeRRSIG] true).1) :: restn),
          Signatures := mapSet node.Signatures TypeNSEC [] }
      else some node) := by
  simp only [ZoneData.signNsecPhase, h]

/-- C3 witness: the amended characterization applied to the concrete node (condition
false, node unchanged). -/
theorem c3_amended_witness : ZoneData.signNsecPhase c3node "x." cfg0 = some c3node := by
  have h := c3_amended_nsec_condition c3node "x." cfg0
    { Name := "w.x.", Rrtype := 47, Class := 1, Ttl := 300, Rdlength := 0 } "x."
    [1, 16, 46, 47] [] (by decide)
  rw [h]
  decide

/-- C7 counterexample: on a zone whose apex node exists but holds no SOA RRset, `Sign`
panics at the `RR[TypeSOA][0]` index into a nil slice — it does not return the
MissingSoa error (for any keys/config; shown at a concrete one). -/
theorem c7_counterexample_present_apex_panics :
    Zone.Sign c7zone [] keytags0 cfg0 env0 9 = .panics ∧
    (match Zone.Sign c7zone [] keytags0 cfg0 env0 9 with
     | .fails _ _ => true
     | _ => false) = false :=
  ⟨by decide, by decide⟩

/-- C7 (amended): for every key map, key-tag capability, config and environment,
`Sign` on a zone whose apex node is absent from the tree fails with MissingSoa and
modifies nothing but `ModTime`; when the apex node is present but has no SOA RRset,
`Sign` panics (nil-slice index) instead of returning MissingSoa. -/
theorem c7_amended_sign_no_soa (z : Zone) (keys : List (DNSKEY × Nat))
    (keytags : DNSKEY → Nat) (config : SignatureConfig) (env : SignEnv) (now : Nat)
    (originKey : String) (hk : toRadixName z.Origin = some originKey) :
    (treeFindExact z.tree originKey = none →
      Zone.Sign z keys keytags config env now = .fails .missingSoa { z with ModTime := now }) ∧
    (∀ apex : ZoneData, treeFindExact z.tree originKey = some apex →
      mapGet apex.RR TypeSOA = none →
      Zone.Sign z keys keytags config env now = .panics) := by
  constructor
  · intro h
    simp only [Zone.Sign, hk, h]
  · intro apex h hsoa
    simp only [Zone.Sign, hk, h, hsoa]

/-- C7 witness: the amended claim applied to a concrete absent-apex zone and a concrete
present-apex-without-SOA zone. -/
theorem c7_amended_witness :
    Zone.Sign zoneX [] keytags0 cfg0 env0 9 = .fails .missingSoa { zoneX with ModTime := 9 } ∧
    Zone.Sign c7zone [] keytags0 cfg0 env0 9 = .panics :=
  ⟨(c7_amended_sign_no_soa zoneX [] keytags0 cfg0 env0 9 ".x" (by decide)).1 (by decide),
   (c7_amended_sign_no_soa c7zone [] keytags0 cfg0 env0 9 ".x" (by decide)).2 c7apex
     (by decide) (by decide)⟩

/-- C8 counterexample: the NSID option with text `AB` — valid hex, so it is a
recognized option value and packs successfully to the byte 0xAB — unpacks back to text
`ab`: the round-trip is not the identity, because `hex.EncodeToString` emits lowercase.
-/
theorem c8_nsid_counterexample :
    nsidAB.pack = some [171] ∧
    nsidAB.unpack [171] = { Code := 3, Nsid := ['a', 'b'] } ∧
    nsidAB.unpack [171] ≠ nsidAB :=
  ⟨by decide, by decide, by decide⟩

/-- C8 (amended): the recognized option codecs round-trip exactly under these
conditions — NSID when the text is even-length lowercase hex (unpack re-encodes in
lowercase); CLIENT-SUBNET with family 1 when the address is the 16-byte IPv4-mapped
form whose low four bytes are already masked by the source netmask, and with family 2
when the 16-byte address is already masked (pack masks the address and emits it at full
width, and family-1 unpack rebuilds the IPv4-mapped form, so other representations do
not round-trip); UPDATE-LEASE for every 32-bit lease; LLQ for all in-range field
values. -/
theorem c8_amended_roundtrips :
    (∀ e : EDNS0_NSID, (∀ c ∈ e.Nsid, isLowerHexDigit c = true) →
      e.Nsid.length % 2 = 0 → ∃ b, e.pack = some b ∧ e.unpack b = e) ∧
    (∀ code n scope a0 a1 a2 a3 : Nat, n ≤ 32 → scope < 256 →
      goMask [a0, a1, a2, a3] (cidrMask n 32) = [a0, a1, a2, a3] →
      (EDNS0_SUBNET.pack
          { Code := code, Family := 1, SourceNetmask := n, SourceScope := scope,
            Address := goIPv4 a0 a1 a2 a3 }) = .ok ([0, 1, n, scope, a0, a1, a2, a3]) ∧
      (EDNS0_SUBNET.unpack
          { Code := code, Family := 1, SourceNetmask := n, SourceScope := scope,
            Address := goIPv4 a0 a1 a2 a3 } [0, 1, n, scope, a0, a1, a2, a3]) =
        { Code := code, Family := 1, SourceNetmask := n, SourceScope := scope,
          Address := goIPv4 a0 a1 a2 a3 }) ∧
    (∀ code n scope x0 x1 x2 x3 x4 x5 x6 x7 x8 x9 x10 x11 x12 x13 x14 x15 : Nat,
      n ≤ 128 → scope < 256 →
      goMask [x0, x1, x2, x3, x4, x5, x6, x7, x8, x9, x10, x11, x12, x13, x14, x15]
          (cidrMask n 128)
        = [x0, x1, x2, x3, x4, x5, x6, x7, x8, x9, x10, x11, x12, x13, x14, x15] →
      (EDNS0_SUBNET.pack
          { Code := code, Family := 2, SourceNetmask := n, SourceScope := scope,
            Address := [x0, x1, x2, x3, x4, x5, x6, x7, x8, x9, x10, x11, x12, x13,
              x14, x15] })
        = .ok ([0, 2, n, scope] ++
            [x0, x1, x2, x3, x4, x5, x6, x7, x8, x9, x10, x11, x12, x13, x14, x15]) ∧
      (EDNS0_SUBNET.unpack
          { Code := code, Family := 2, SourceNetmask := n, SourceScope := scope,
            Address := [x0, x1, x2, x3, x4, x5, x6, x7, x8, x9, x10, x11, x12, x13,
              x14, x15] }
          ([0, 2, n, scope] ++
            [x0, x1, x2, x3, x4, x5, x6, x7, x8, x9, x10, x11, x12, x13, x14, x15]))
        = { Code := code, Family := 2, SourceNetmask := n, SourceScope := scope,
            Address := [x0, x1, x2, x3, x4, x5, x6, x7, x8, x9, x10, x11, x12, x13,
              x14, x15] }) ∧
    (∀ e : EDNS0_UPDATE_LEASE, e.Lease < 4294967296 → e.unpack e.pack = some e) ∧
    (∀ e : EDNS0_LLQ, e.Version < 65536 → e.LLQOpcode < 65536 → e.ErrorCode < 65536 →
      e.LLQID < 18446744073709551616 → e.LeaseLife < 4294967296 →
      e.unpack e.pack = some e) :=
  ⟨nsid_roundtrip,
   fun code n scope a0 a1 a2 a3 hn hs hmask =>
     subnet4_roundtrip code n scope a0 a1 a2 a3 hn hs hmask,
   fun code n scope x0 x1 x2 x3 x4 x5 x6 x7 x8 x9 x10 x11 x12 x13 x14 x15 hn hs hmask =>
     subnet6_roundtrip code n scope x0 x1 x2 x3 x4 x5 x6 x7 x8 x9 x10 x11 x12 x13 x14
       x15 hn hs hmask,
   lease_roundtrip,
   llq_roundtrip⟩

/-- C8 witness: the amended round-trips applied to concrete options — an NSID with text
`0a`, the spec's S6 client-subnet example `192.0.2.0/24` (family 1), an all-zero /56
IPv6 subnet (family 2), an UPDATE-LEASE of 120 s and a small LLQ. -/
theorem c8_amended_witness :
    (∃ b, EDNS0_NSID.pack { Code := 3, Nsid := ['0', 'a'] } = some b ∧
      EDNS0_NSID.unpack { Code := 3, Nsid := ['0', 'a'] } b
        = { Code := 3, Nsid := ['0', 'a'] }) ∧
    (EDNS0_SUBNET.unpack
        { Code := 20730, Family := 1, SourceNetmask := 24, SourceScope := 0,
          Address := goIPv4 192 0 2 0 } [0, 1, 24, 0, 192, 0, 2, 0])
      = { Code := 20730, Family := 1, SourceNetmask := 24, SourceScope := 0,
          Address := goIPv4 192 0 2 0 } ∧
    (EDNS0_SUBNET.pack
        { Code := 20730, Family := 2, SourceNetmask := 56, SourceScope := 0,
          Address := [0, 0, 0, 0, 0, 0, 0, 0, 0, 0, 0, 0, 0, 0, 0, 0] })
      = .ok ([0, 2, 56, 0] ++ [0, 0, 0, 0, 0, 0, 0, 0, 0, 0, 0, 0, 0, 0, 0, 0]) ∧
    EDNS0_UPDATE_LEASE.unpack { Code := 2, Lease := 120 }
      (EDNS0_UPDATE_LEASE.pack { Code := 2, Lease := 120 })
      = some { Code := 2, Lease := 120 } ∧
    EDNS0_LLQ.unpack
      { Code := 1, Version := 1, LLQOpcode := 1, ErrorCode := 0, LLQID := 42,
        LeaseLife := 120 }
      (EDNS0_LLQ.pack
        { Code := 1, Version := 1, LLQOpcode := 1, ErrorCode := 0, LLQID := 42,
          LeaseLife := 120 })
      = some { Code := 1, Version := 1, LLQOpcode := 1, ErrorCode := 0, LLQID := 42,
               LeaseLife := 120 } :=
  ⟨c8_amended_roundtrips.1 _ (by decide) (by decide),
   (c8_amended_roundtrips.2.1 20730 24 0 192 0 2 0 (by norm_num) (by norm_num)
     (by decide)).2,
   (c8_amended_roundtrips.2.2.1 20730 56 0 0 0 0 0 0 0 0 0 0 0 0 0 0 0 0 0
     (by norm_num) (by norm_num) (by decide)).1,
   c8_amended_roundtrips.2.2.2.1 _ (by norm_num),
   c8_amended_roundtrips.2.2.2.2 _ (by norm_num) (by norm_num) (by norm_num)
     (by norm_num) (by norm_num)⟩

/-- C9 counterexample: on an OPT with ttl 0, `SetVersion(1)` yields ttl 1 — the value
lands in the low flag byte (bits 0–7); the claim requires the version byte (bits 16–23)
alone to be overwritten, which would give ttl 0x00010000 = 65536. -/
theorem c9_setversion_counterexample :
    OPT.SetVersion 0 1 = 1 ∧ OPT.SetVersion 0 1 ≠ 65536 :=
  ⟨by decide, by decide⟩

/-- C9 (amended): for every 32-bit ttl, `SetDo` changes only the DO bit — the low 15
bits and the bits from 16 up are unchanged and bit 15 is set afterwards — while
`SetVersion(v)` does not write `v` into the version byte: it zeroes bits 16–23, leaves
bits 24–31 and 8–15 unchanged, and ORs `v` into the low byte (bits 0–7). -/
theorem c9_amended_setdo_setversion_frame (ttl v : Nat) (ht : ttl < 4294967296)
    (hv : v < 256) :
    OPT.SetDo ttl % 32768 = ttl % 32768 ∧
    OPT.SetDo ttl / 65536 = ttl / 65536 ∧
    OPT.SetDo ttl / 32768 % 2 = 1 ∧
    OPT.SetVersion ttl v / 16777216 = ttl / 16777216 ∧
    OPT.SetVersion ttl v / 65536 % 256 = 0 ∧
    OPT.SetVersion ttl v / 256 % 256 = ttl / 256 % 256 ∧
    OPT.SetVersion ttl v % 256 = (ttl % 256) ||| v := by
  have hsd := setDo_arith ttl
  have hsv := setVersion_arith ttl v ht hv
  have h128 := lor128_eq (ttl / 256 % 256) (Nat.mod_lt _ (by norm_num))
  have hBv : (ttl % 256) ||| v < 256 := lor_lt_256 _ _ (Nat.mod_lt _ (by norm_num)) hv
  rw [h128] at hsd
  refine ⟨by omega, by omega, by omega, by omega, by omega, by omega, by omega⟩

/-- C9 witness: the amended frame properties at ttl 0xAAAAAAAA and v = 5. -/
theorem c9_amended_witness :
    OPT.SetDo 2863311530 % 32768 = 2863311530 % 32768 ∧
    OPT.SetDo 2863311530 / 65536 = 2863311530 / 65536 ∧
    OPT.SetDo 2863311530 / 32768 % 2 = 1 ∧
    OPT.SetVersion 2863311530 5 / 16777216 = 2863311530 / 16777216 ∧
    OPT.SetVersion 2863311530 5 / 65536 % 256 = 0 ∧
    OPT.SetVersion 2863311530 5 / 256 % 256 = 2863311530 / 256 % 256 ∧
    OPT.SetVersion 2863311530 5 % 256 = (2863311530 % 256) ||| 5 :=
  c9_amended_setdo_setversion_frame 2863311530 5 (by norm_num) (by norm_num)

/-- C6 (failing evaluation): at a node holding an A RRset and a TXT RRset,
`RemoveRRset(name, A)` empties the whole `RR` map — the TXT RRset is destroyed as well,
because the loop variable of `for t := range zd.RR { delete(zd.RR, t) }` shadows the
parameter `t`.  The node itself stays in the tree and no error is returned, as the claim
says. -/
theorem c6_removeRRset_clears_every_type :
    mapGetD zoneWnode.RR TypeTXT = [rrWTXT] ∧
    Zone.RemoveRRset zoneW "w.x." TypeA 3 =
      .ok { zoneW with ModTime := 3, tree := [(".x.w", { zoneWnode with RR := [] })] } :=
  ⟨by decide, by decide⟩

end Dns
